import Mathlib

/-!
Shallow embedding of the hastin metric time-series engine and record/replay
subsystem (src/hastin/Modules/MetricManager.py, ReplayManager.py,
WorkerManager.py, KeyEventManager.py, PostgreSQL.py), together with theorems
checking the specification's claims against it.

Modelling conventions:
* Python `int` values become `ℤ`; Python `float` quantities that the claims
  depend on (polling latency, means, ratios) become `ℚ` with exact arithmetic.
* Python `round` (banker's rounding, ties to even) is `pyRound`; `int(x)`
  truncation toward zero is `ratTrunc`.
* `collections.deque` becomes `List` (appends on the right, `popleft` = `tail`).
* Python dicts keyed by strings become association lists with `dictGet` /
  `dictSet` mirroring `dict.get` / item assignment, `dictUpdate` mirroring
  `dict.update` (insertion order preserved, existing keys overwritten).
* Timestamps are modelled as integers (seconds); `datetime` strings in the
  source always parse back, so the ValueError branch of
  `daemon_cleanup_data` is unreachable in the model.
-/

namespace Hastin

/-- Python `round` on an exact rational: round half to even (banker's
rounding), as used by `round(metric_diff / self.polling_latency)` in
`MetricManager.update_metrics_per_second_values`. -/
def pyRound (q : ℚ) : ℤ :=
  let f : ℤ := ⌊q⌋
  let r : ℚ := q - (f : ℚ)
  if r < 1/2 then f
  else if 1/2 < r then f + 1
  else if f % 2 = 0 then f else f + 1

/-- Python `round(x, 1)`: round to one decimal digit, ties to even. -/
def pyRound1 (q : ℚ) : ℚ := (pyRound (q * 10) : ℚ) / 10

/-- Python `int(x)` on a numeric value: truncation toward zero. -/
def ratTrunc (q : ℚ) : ℤ := if q < 0 then ⌈q⌉ else ⌊q⌋

/-- Association-list model of a Python `dict[str, int]`. -/
abbrev Dict := List (String × ℤ)

/-- `d.get(k, dflt)`. -/
def dictGet (d : Dict) (k : String) (dflt : ℤ) : ℤ :=
  ((d.lookup k).getD dflt)

/-- `d[k] = v`: overwrite in place if the key exists, append otherwise. -/
def dictSet (d : Dict) (k : String) (v : ℤ) : Dict :=
  if (d.lookup k).isSome then
    d.map (fun p => if p.1 = k then (k, v) else p)
  else d ++ [(k, v)]

/-- `d.update(u)`. -/
def dictUpdate (d u : Dict) : Dict :=
  u.foldl (fun acc p => dictSet acc p.1 p.2) d

/-- Association-list model of a Python `dict[str, str]`. -/
abbrev StrDict := List (String × String)

/-! ## Data model (MetricManager.py) -/

/-- `DataTypes.ConnectionSource` (the constants actually used by the metric
catalog). -/
inductive ConnectionSource
  | postgresql | pgbouncer | rds | aurora | cloud_sql | alloydb | azure
  | cosmos_citus | supabase | neon | aiven | crunchy_bridge | digitalocean
  | heroku | timescale | railway | render | fly
deriving DecidableEq, Repr

/-- `MetricManager.MetricSource`. -/
inductive MetricSource
  | SYSTEM_UTILIZATION | DISK_IO_METRICS | DATABASE_STATS | BGWRITER_STATS
  | CONNECTION_STATS | PGBOUNCER_POOLS | PGBOUNCER_STATS | NONE
deriving DecidableEq, Repr

/-- `MetricManager.MetricData` (the fields the ingestion path reads or
writes; label/color/visible/graphable/create_switch are presentation-only). -/
structure MetricData where
  save_history : Bool := true
  per_second_calculation : Bool := true
  last_value : Option ℤ := none
  values : List ℤ := []
deriving DecidableEq, Repr

/-- One `(attr_name, MetricData, connection_source)` entry of the dispatch
tables, tagged with the owning metric-instance name so that
`update_metrics_replication_lag` / `update_pg_cache_hit_ratio` /
`_serialize_metrics` can address it. -/
structure MetricEntry where
  instName : String
  attrName : String
  source : MetricSource
  connSource : List ConnectionSource
  data : MetricData
deriving DecidableEq, Repr

/-- The mutable state of `MetricManager`. -/
structure MMState where
  connection_source : ConnectionSource
  replay_file : Bool
  daemon_mode : Bool
  initialized : Bool
  polling_latency : ℚ
  worker_start_time : Option ℤ
  datetimes : List ℤ
  system_utilization : Dict
  disk_io_metrics : Dict
  replication_status : Dict
  database_stats : Dict
  bgwriter_stats : Dict
  connection_stats : Dict
  pgbouncer_pools : Dict
  pgbouncer_stats : Dict
  entries : List MetricEntry
deriving DecidableEq, Repr

/-- `_all_pg_sources()`. -/
def all_pg_sources : List ConnectionSource :=
  [.postgresql, .rds, .aurora, .cloud_sql, .alloydb, .azure, .cosmos_citus,
   .supabase, .neon, .aiven, .crunchy_bridge, .digitalocean, .heroku,
   .timescale, .railway, .render, .fly]

/-- Connection sources of the system metric instances. -/
def system_conn_sources : List ConnectionSource := [.postgresql, .rds, .pgbouncer]

/-- The metric catalog built by `MetricManager.reset`, flattened into the
per-`MetricData` entries that the `reset` registration loop walks (instance
order = `MetricInstances` field order, attribute order = dataclass field
order). -/
def metricCatalog : List MetricEntry :=
  [ -- system_cpu
    ⟨"system_cpu", "CPU_Percent", .SYSTEM_UTILIZATION, system_conn_sources,
      { per_second_calculation := false }⟩,
    -- system_memory
    ⟨"system_memory", "Memory_Total", .SYSTEM_UTILIZATION, system_conn_sources,
      { per_second_calculation := false, save_history := false }⟩,
    ⟨"system_memory", "Memory_Used", .SYSTEM_UTILIZATION, system_conn_sources,
      { per_second_calculation := false }⟩,
    -- system_disk_io
    ⟨"system_disk_io", "Disk_Read", .SYSTEM_UTILIZATION, system_conn_sources, {}⟩,
    ⟨"system_disk_io", "Disk_Write", .SYSTEM_UTILIZATION, system_conn_sources, {}⟩,
    -- system_network
    ⟨"system_network", "Network_Down", .SYSTEM_UTILIZATION, system_conn_sources, {}⟩,
    ⟨"system_network", "Network_Up", .SYSTEM_UTILIZATION, system_conn_sources, {}⟩,
    -- pg_transactions
    ⟨"pg_transactions", "xact_commit", .DATABASE_STATS, all_pg_sources, {}⟩,
    ⟨"pg_transactions", "xact_rollback", .DATABASE_STATS, all_pg_sources, {}⟩,
    -- pg_tuples
    ⟨"pg_tuples", "tup_fetched", .DATABASE_STATS, all_pg_sources, {}⟩,
    ⟨"pg_tuples", "tup_inserted", .DATABASE_STATS, all_pg_sources, {}⟩,
    ⟨"pg_tuples", "tup_updated", .DATABASE_STATS, all_pg_sources, {}⟩,
    ⟨"pg_tuples", "tup_deleted", .DATABASE_STATS, all_pg_sources, {}⟩,
    -- pg_block_io
    ⟨"pg_block_io", "blks_hit", .DATABASE_STATS, all_pg_sources, {}⟩,
    ⟨"pg_block_io", "blks_read", .DATABASE_STATS, all_pg_sources, {}⟩,
    -- pg_cache_hit_ratio (calculated metric: MetricSource.NONE)
    ⟨"pg_cache_hit_ratio", "cache_hit_ratio", .NONE, all_pg_sources,
      { per_second_calculation := false }⟩,
    -- pg_connections
    ⟨"pg_connections", "active", .CONNECTION_STATS, all_pg_sources,
      { per_second_calculation := false }⟩,
    ⟨"pg_connections", "idle", .CONNECTION_STATS, all_pg_sources,
      { per_second_calculation := false }⟩,
    ⟨"pg_connections", "idle_in_transaction", .CONNECTION_STATS, all_pg_sources,
      { per_second_calculation := false }⟩,
    -- pg_checkpoints
    ⟨"pg_checkpoints", "checkpoints_timed", .BGWRITER_STATS, all_pg_sources, {}⟩,
    ⟨"pg_checkpoints", "checkpoints_req", .BGWRITER_STATS, all_pg_sources, {}⟩,
    ⟨"pg_checkpoints", "buffers_checkpoint", .BGWRITER_STATS, all_pg_sources, {}⟩,
    -- pg_temp_files
    ⟨"pg_temp_files", "temp_files", .DATABASE_STATS, all_pg_sources, {}⟩,
    ⟨"pg_temp_files", "temp_bytes", .DATABASE_STATS, all_pg_sources, {}⟩,
    -- replication_lag
    ⟨"replication_lag", "lag", .NONE, [.postgresql],
      { per_second_calculation := false }⟩,
    -- pgbouncer_connections
    ⟨"pgbouncer_connections", "cl_active", .PGBOUNCER_POOLS, [.pgbouncer],
      { per_second_calculation := false }⟩,
    ⟨"pgbouncer_connections", "cl_waiting", .PGBOUNCER_POOLS, [.pgbouncer],
      { per_second_calculation := false }⟩,
    ⟨"pgbouncer_connections", "sv_active", .PGBOUNCER_POOLS, [.pgbouncer],
      { per_second_calculation := false }⟩,
    ⟨"pgbouncer_connections", "sv_idle", .PGBOUNCER_POOLS, [.pgbouncer],
      { per_second_calculation := false }⟩,
    -- pgbouncer_traffic
    ⟨"pgbouncer_traffic", "xact_count", .PGBOUNCER_STATS, [.pgbouncer], {}⟩,
    ⟨"pgbouncer_traffic", "query_count", .PGBOUNCER_STATS, [.pgbouncer], {}⟩,
    ⟨"pgbouncer_traffic", "bytes_received", .PGBOUNCER_STATS, [.pgbouncer], {}⟩,
    ⟨"pgbouncer_traffic", "bytes_sent", .PGBOUNCER_STATS, [.pgbouncer], {}⟩ ]

/-- `MetricManager.reset`: wipe all history and rebuild the catalog and
dispatch tables. `connection_source`, `replay_file` and `daemon_mode`
survive a reset. -/
def reset (s : MMState) : MMState :=
  { s with initialized := false
           polling_latency := 0
           datetimes := []
           system_utilization := []
           disk_io_metrics := []
           replication_status := []
           database_stats := []
           bgwriter_stats := []
           connection_stats := []
           pgbouncer_pools := []
           pgbouncer_stats := []
           entries := metricCatalog }

/-- `MetricManager.__init__(replay_file, daemon_mode)` (which ends by calling
`reset`); a monitor session starts with `connection_source = postgresql`
until the connection is classified. -/
def mkMetricManager (cs : ConnectionSource) (replay_file daemon_mode : Bool) : MMState :=
  reset { connection_source := cs
          replay_file := replay_file
          daemon_mode := daemon_mode
          initialized := false
          polling_latency := 0
          worker_start_time := none
          datetimes := []
          system_utilization := []
          disk_io_metrics := []
          replication_status := []
          database_stats := []
          bgwriter_stats := []
          connection_stats := []
          pgbouncer_pools := []
          pgbouncer_stats := []
          entries := [] }

/-! ## Ingestion (MetricManager.py lines 733–910) -/

/-- `MetricManager.add_metric`: append when `save_history`, otherwise keep a
single latest value; a no-op until the store is `initialized`. -/
def add_metric (initialized : Bool) (md : MetricData) (value : ℤ) : MetricData :=
  if initialized then
    if md.save_history then { md with values := md.values ++ [value] }
    else
      match md.values with
      | [] => { md with values := [value] }
      | _ :: tl => { md with values := value :: tl }
  else md

/-- `MetricManager.get_metric_source_data` via `_metric_source_map`. -/
def get_metric_source_data (s : MMState) : MetricSource → Option Dict
  | .SYSTEM_UTILIZATION => some s.system_utilization
  | .DISK_IO_METRICS => some s.disk_io_metrics
  | .DATABASE_STATS => some s.database_stats
  | .BGWRITER_STATS => some s.bgwriter_stats
  | .CONNECTION_STATS => some s.connection_stats
  | .PGBOUNCER_POOLS => some s.pgbouncer_pools
  | .PGBOUNCER_STATS => some s.pgbouncer_stats
  | .NONE => none

/-- The body of the inner loop of
`MetricManager.update_metrics_per_second_values` for one metric:
first-observation baseline, rate derivation (zero-latency guard), gauge
pass-through, the `CPU_Percent` smoothing special case, and the final
`add_metric(metric_data, int(metric_status_per_sec))`. -/
def update_metric_step (initialized : Bool) (isCPU : Bool) (latency : ℚ)
    (raw : ℤ) (md : MetricData) : MetricData :=
  match md.last_value with
  | none => { md with last_value := some raw }
  | some lv =>
    let v : ℚ :=
      if md.per_second_calculation then
        if 0 < latency then ((pyRound (((raw - lv : ℤ) : ℚ) / latency) : ℤ) : ℚ)
        else 0
      else (raw : ℚ)
    if isCPU then
      if md.values.length = 1 ∧ md.values.headI = 0 then
        -- `metric_data.values[0] = metric_status_per_sec` followed by the
        -- unconditional `add_metric` call below
        add_metric initialized { md with values := [ratTrunc v] } (ratTrunc v)
      else if (v = 0 ∨ v = 100) ∧
          10 < |v - (((md.values.getLast?).getD 0 : ℤ) : ℚ)| then
        let recent := md.values.drop (md.values.length - 3)
        if recent ≠ [] then
          add_metric initialized md
            (ratTrunc ((recent.sum : ℚ) / (recent.length : ℚ)))
        else add_metric initialized md (ratTrunc v)
      else add_metric initialized md (ratTrunc v)
    else add_metric initialized md (ratTrunc v)

/-- The body of the loop of `update_metrics_per_second_values` for a single
dispatch-table entry (skip when the source supplies no data or the
connection source does not match the session). -/
def upsvEntry (s : MMState) (e : MetricEntry) : MetricEntry :=
  match get_metric_source_data s e.source with
  | none => e
  | some d =>
    if s.connection_source ∈ e.connSource then
      let md := update_metric_step s.initialized (e.attrName = "CPU_Percent")
        s.polling_latency (dictGet d e.attrName 0) e.data
      { e with data := md }
    else e

/-- `MetricManager.update_metrics_per_second_values`: walk the dispatch table
(all entries with a real source), skipping entries whose connection source
does not match the session. -/
def update_metrics_per_second_values (s : MMState) : MMState :=
  { s with entries := s.entries.map (upsvEntry s) }

/-- The body of the loop of `update_metrics_last_value` for one entry. -/
def umlvEntry (s : MMState) (e : MetricEntry) : MetricEntry :=
  match get_metric_source_data s e.source with
  | none => e
  | some d =>
    { e with data := { e.data with last_value := some (dictGet d e.attrName 0) } }

/-- `MetricManager.update_metrics_last_value`: second pass setting
`last_value` from the raw source for every dispatch-table entry (note: no
connection-source filter in this pass). -/
def update_metrics_last_value (s : MMState) : MMState :=
  { s with entries := s.entries.map (umlvEntry s) }

/-- Apply `f` to the `MetricData` of the entry when it is the one named
`inst`.`attr`. -/
def updateEntryFun (inst attr : String) (f : MetricData → MetricData)
    (e : MetricEntry) : MetricEntry :=
  if e.instName = inst ∧ e.attrName = attr then { e with data := f e.data }
  else e

/-- Apply `f` to the `MetricData` of the entry named `inst`.`attr`. -/
def updateEntry (s : MMState) (inst attr : String) (f : MetricData → MetricData) :
    MMState :=
  { s with entries := s.entries.map (updateEntryFun inst attr f) }

/-- `MetricManager.update_metrics_replication_lag`. -/
def update_metrics_replication_lag (s : MMState) : MMState :=
  updateEntry s "replication_lag" "lag" (fun md =>
    add_metric s.initialized md (dictGet s.replication_status "Seconds_Behind" 0))

/-- The `hit_ratio` computed by `MetricManager.update_pg_cache_hit_ratio`:
`round((blks_hit / total_blocks) * 100, 1)` when any blocks were touched,
else `100.0`. -/
def cache_hit_ratio_value (s : MMState) : ℚ :=
  let blks_hit := dictGet s.database_stats "blks_hit" 0
  let blks_read := dictGet s.database_stats "blks_read" 0
  let total_blocks := blks_hit + blks_read
  if 0 < total_blocks then pyRound1 (((blks_hit : ℚ) / (total_blocks : ℚ)) * 100)
  else 100

/-- `MetricManager.update_pg_cache_hit_ratio`: the stored value is
`int(hit_ratio)`. -/
def update_pg_cache_hit_ratio (s : MMState) : MMState :=
  updateEntry s "pg_cache_hit_ratio" "cache_hit_ratio" (fun md =>
    add_metric s.initialized md (ratTrunc (cache_hit_ratio_value s)))

/-- `MetricManager.add_metric_datetime`: append the worker timestamp, only
when initialized, live (no replay file), and a start time is set. -/
def add_metric_datetime (s : MMState) : MMState :=
  match s.worker_start_time with
  | some t =>
    if s.initialized ∧ ¬ s.replay_file then { s with datetimes := s.datetimes ++ [t] }
    else s
  | none => s

/-- Per-entry body of the eviction pop: `metric_data.values.popleft()` when
the series keeps history and is non-empty. -/
def popHistoryEntry (e : MetricEntry) : MetricEntry :=
  if e.data.save_history ∧ e.data.values ≠ [] then
    { e with data := { e.data with values := e.data.values.tail } }
  else e

/-- One `while` iteration body of `MetricManager.daemon_cleanup_data`: pop
the leftmost timestamp and, in lockstep, the front of every non-empty
history-bearing series. -/
def popHistoryFronts (es : List MetricEntry) : List MetricEntry :=
  es.map popHistoryEntry

/-- The `while self.datetimes` loop of `daemon_cleanup_data`: keep popping
while the oldest timestamp is older than the threshold. -/
def cleanup_loop (threshold : ℤ) :
    List ℤ → List MetricEntry → List ℤ × List MetricEntry
  | [], es => ([], es)
  | t :: rest, es =>
    if t < threshold then cleanup_loop threshold rest (popHistoryFronts es)
    else (t :: rest, es)

/-- `MetricManager.daemon_cleanup_data` (`now` stands for `datetime.now()`;
the 10-minute window is 600 seconds). -/
def daemon_cleanup_data (s : MMState) (now : ℤ) : MMState :=
  if s.daemon_mode ∧ s.datetimes ≠ [] then
    let p := cleanup_loop (now - 600) s.datetimes s.entries
    { s with datetimes := p.1, entries := p.2 }
  else s

/-- The keyword arguments of one `MetricManager.refresh_data` call, plus the
wall-clock `now` read by `daemon_cleanup_data` during that call. -/
structure RefreshArgs where
  worker_start_time : ℤ
  polling_latency : ℚ := 0
  system_utilization : Dict := []
  disk_io_metrics : Dict := []
  replication_status : Dict := []
  database_stats : Dict := []
  bgwriter_stats : Dict := []
  connection_stats : Dict := []
  pgbouncer_pools : Dict := []
  pgbouncer_stats : Dict := []
  now : ℤ := 0
deriving Repr

/-- First phase of `MetricManager.refresh_data`: record the worker start
time and latency and merge the raw snapshot into the per-source stores
(`dict.update` for all but `replication_status`, which is reassigned). -/
def refresh_merge (s : MMState) (a : RefreshArgs) : MMState :=
  { s with
    worker_start_time := some a.worker_start_time
    polling_latency := a.polling_latency
    system_utilization := dictUpdate s.system_utilization a.system_utilization
    disk_io_metrics := dictUpdate s.disk_io_metrics a.disk_io_metrics
    replication_status := a.replication_status
    database_stats := dictUpdate s.database_stats a.database_stats
    bgwriter_stats := dictUpdate s.bgwriter_stats a.bgwriter_stats
    connection_stats := dictUpdate s.connection_stats a.connection_stats
    pgbouncer_pools := dictUpdate s.pgbouncer_pools a.pgbouncer_pools
    pgbouncer_stats := dictUpdate s.pgbouncer_stats a.pgbouncer_stats }

/-- Second phase of `refresh_data`: the four update passes, run only when no
replay file is in use (`update_metrics_last_value` must be last). -/
def refresh_updates (s : MMState) : MMState :=
  if ¬ s.replay_file then
    update_metrics_last_value
      (update_pg_cache_hit_ratio
        (update_metrics_replication_lag
          (update_metrics_per_second_values s)))
  else s

/-- `MetricManager.refresh_data`: merge the raw snapshot into the per-source
stores, derive the new metric values (live mode only), append the clock
timestamp, run daemon eviction, and finally mark the store initialized. -/
def refresh_data (s : MMState) (a : RefreshArgs) : MMState :=
  { daemon_cleanup_data (add_metric_datetime (refresh_updates (refresh_merge s a))) a.now
    with initialized := true }

/-! ## Concrete sample sessions used by several claims -/

/-- A fresh live PostgreSQL monitoring session. -/
def liveSession : MMState := mkMetricManager .postgresql false false

/-- A poll cycle delivering only one database-stats counter, at 5-second
cycle cost. -/
def rateArgs (v : ℤ) : RefreshArgs :=
  { worker_start_time := 0, polling_latency := 5
    database_stats := [("xact_commit", v)] }

/-- The spec's rate-derivation scenario: raw `xact_commit` sequence
`[100, 150, 225]` sampled at 5-second cycles. -/
def rateSession : MMState :=
  refresh_data (refresh_data (refresh_data liveSession (rateArgs 100)) (rateArgs 150))
    (rateArgs 225)

/-- A poll cycle delivering only the raw CPU utilization gauge. -/
def cpuArgs (v : ℤ) : RefreshArgs :=
  { worker_start_time := 0, polling_latency := 1
    system_utilization := [("CPU_Percent", v)] }

/-- Run a fresh live session over a sequence of raw CPU samples. -/
def cpuSession (vs : List ℤ) : MMState :=
  vs.foldl (fun s v => refresh_data s (cpuArgs v)) liveSession

/-- The values stored for a named metric of a session. -/
def storedValues (s : MMState) (inst attr : String) : List (List ℤ) :=
  (s.entries.filter (fun e => e.instName = inst ∧ e.attrName = attr)).map
    (fun e => e.data.values)

/-! ## Basic arithmetic lemmas -/

theorem ratTrunc_intCast (n : ℤ) : ratTrunc (n : ℚ) = n := by
  unfold ratTrunc
  split <;> simp

theorem add_metric_not_initialized (md : MetricData) (v : ℤ) :
    add_metric false md v = md := by
  simp [add_metric]

theorem add_metric_history (md : MetricData) (v : ℤ) (h : md.save_history = true) :
    add_metric true md v = { md with values := md.values ++ [v] } := by
  simp [add_metric, h]

/-! ## Claim C2: rate derivation -/

/-- Claim C2: for every rate-derived metric, the first observation only
stores the raw value as `last_value` and emits nothing; every later
observation emits `round((raw - last_value) / cycle_cost_seconds)` when
`cycle_cost_seconds > 0` and `0` when it is `0` (no division error); and
the raw sequence `[100, 150, 225]` at 5-second cycles stores `[10, 15]`.
(No rate-derived metric in the catalog is the CPU metric, so the smoothing
special case never interferes.) -/
theorem rate_derivation_spec :
    (∀ (initialized isCPU : Bool) (latency : ℚ) (raw : ℤ) (md : MetricData),
        md.last_value = none →
        update_metric_step initialized isCPU latency raw md
          = { md with last_value := some raw }) ∧
    (∀ (latency : ℚ) (raw lv : ℤ) (md : MetricData),
        md.last_value = some lv → md.per_second_calculation = true →
        md.save_history = true → 0 < latency →
        update_metric_step true false latency raw md
          = { md with values := md.values ++ [pyRound (((raw - lv : ℤ) : ℚ) / latency)] }) ∧
    (∀ (raw lv : ℤ) (md : MetricData),
        md.last_value = some lv → md.per_second_calculation = true →
        md.save_history = true →
        update_metric_step true false 0 raw md
          = { md with values := md.values ++ [0] }) ∧
    (∀ e ∈ metricCatalog, e.data.per_second_calculation = true →
        e.attrName ≠ "CPU_Percent") ∧
    storedValues rateSession "pg_transactions" "xact_commit" = [[10, 15]] := by
  refine ⟨?_, ?_, ?_, by decide, by with_unfolding_all rfl⟩
  · intro initialized isCPU latency raw md h
    simp [update_metric_step, h]
  · intro latency raw lv md hlv hps hsh hlat
    simp [update_metric_step, hlv, hps, if_pos hlat, add_metric_history _ _ hsh,
      ratTrunc_intCast]
  · intro raw lv md hlv hps hsh
    have h0 : ¬ ((0:ℚ) < 0) := by norm_num
    simp [update_metric_step, hlv, hps, if_neg h0, add_metric_history _ _ hsh]
    norm_num [ratTrunc]

/-- Witness for C2 at concrete inputs. -/
theorem rate_derivation_spec_witness :
    update_metric_step true false 5 150
        { per_second_calculation := true, save_history := true,
          last_value := some 100, values := [] }
      = { per_second_calculation := true, save_history := true,
          last_value := some 100, values := [pyRound ((150 - 100 : ℤ) / (5:ℚ))] } :=
  rate_derivation_spec.2.1 5 150 100 _ rfl rfl rfl (by norm_num)

/-! ## Claim C5: CPU boundary smoothing -/

/-- A list has a single stored zero sample iff it is `[0]` (the guard of the
first smoothing branch). -/
theorem length_one_headI_zero_iff (l : List ℤ) :
    (l.length = 1 ∧ l.headI = 0) ↔ l = [0] := by
  cases l with
  | nil => simp
  | cons a t =>
    cases t with
    | nil => simp [List.headI]
    | cons b t2 => simp [List.headI]

/-- Claim C5 counterexample: in the reachable session with raw CPU samples
`40, 0, 100`, the prior stored samples are `[0]`; the derived value `100`
lies at a boundary and differs from the previous stored sample `0` by more
than 10, so the claim requires the mean of the last three stored samples
(`mean [0] = 0`) to be stored — but the code's first special-case branch
(`len(values) == 1 and values[0] == 0`) fires instead, overwrites the single
sample with `100`, and appends the unsmoothed `100`. -/
theorem cpu_smoothing_counterexample :
    storedValues (cpuSession [40, 0]) "system_cpu" "CPU_Percent" = [[0]] ∧
    ratTrunc (((([0] : List ℤ).sum : ℤ) : ℚ) / (([0] : List ℤ).length : ℚ)) = 0 ∧
    storedValues (cpuSession [40, 0, 100]) "system_cpu" "CPU_Percent" = [[100, 100]] ∧
    storedValues (cpuSession [40, 0, 100]) "system_cpu" "CPU_Percent" ≠ [[0, 0]] := by
  refine ⟨by with_unfolding_all rfl, by with_unfolding_all rfl,
    by with_unfolding_all rfl, ?_⟩
  intro h
  rw [show storedValues (cpuSession [40, 0, 100]) "system_cpu" "CPU_Percent"
      = [[100, 100]] from by with_unfolding_all rfl] at h
  simp at h

/-- Claim C5 (amended): for the CPU metric (a gauge), when the derived value
is 0 or 100 and deviates from the previous stored sample by more than 10,
the code stores the integer truncation of the mean of the last (up to) three
stored samples — except when exactly one sample is stored and it is 0, in
which case that sample is overwritten with the derived value and the derived
value is appended unsmoothed; with no deviation (or no trigger) the derived
value is stored unchanged; and with no stored samples the derived value is
stored unsmoothed (the trigger may fire against the default 0, but the
empty recent-samples window leaves the value unsmoothed). The spec's two
examples hold. -/
theorem cpu_smoothing_amended :
    (∀ (latency : ℚ) (raw lv : ℤ) (md : MetricData),
      md.last_value = some lv → md.per_second_calculation = false →
      md.save_history = true → md.values = [0] →
      update_metric_step true true latency raw md
        = { md with values := [raw, raw] }) ∧
    (∀ (latency : ℚ) (raw lv : ℤ) (md : MetricData),
      md.last_value = some lv → md.per_second_calculation = false →
      md.save_history = true → md.values ≠ [0] → md.values ≠ [] →
      ((raw : ℚ) = 0 ∨ (raw : ℚ) = 100) →
      10 < |(raw : ℚ) - (((md.values.getLast?).getD 0 : ℤ) : ℚ)| →
      update_metric_step true true latency raw md
        = { md with values := md.values ++
            [ratTrunc ((((md.values.drop (md.values.length - 3)).sum : ℤ) : ℚ)
              / ((md.values.drop (md.values.length - 3)).length : ℚ))] }) ∧
    (∀ (latency : ℚ) (raw lv : ℤ) (md : MetricData),
      md.last_value = some lv → md.per_second_calculation = false →
      md.save_history = true → md.values ≠ [0] →
      ¬ (((raw : ℚ) = 0 ∨ (raw : ℚ) = 100) ∧
          10 < |(raw : ℚ) - (((md.values.getLast?).getD 0 : ℤ) : ℚ)|) →
      update_metric_step true true latency raw md
        = { md with values := md.values ++ [raw] }) ∧
    (∀ (latency : ℚ) (raw lv : ℤ) (md : MetricData),
      md.last_value = some lv → md.per_second_calculation = false →
      md.save_history = true → md.values = [] →
      update_metric_step true true latency raw md
        = { md with values := [raw] }) ∧
    storedValues (cpuSession [40, 40, 42, 45, 0]) "system_cpu" "CPU_Percent"
      = [[40, 42, 45, 42]] ∧
    storedValues (cpuSession [0, 0, 0, 0, 0]) "system_cpu" "CPU_Percent"
      = [[0, 0, 0, 0]] := by
  refine ⟨?_, ?_, ?_, ?_, by with_unfolding_all rfl, by with_unfolding_all rfl⟩
  · intro latency raw lv md hlv hps hsh hv
    have hcond : md.values.length = 1 ∧ md.values.headI = 0 :=
      (length_one_headI_zero_iff md.values).mpr hv
    simp [update_metric_step, hlv, hps, hcond.1, hcond.2, hv,
      ratTrunc_intCast, add_metric, hsh]
  · intro latency raw lv md hlv hps hsh hv hne hbound hdev
    have hcond : ¬ (md.values.length = 1 ∧ md.values.headI = 0) := by
      rw [length_one_headI_zero_iff]; exact hv
    have hrec : md.values.drop (md.values.length - 3) ≠ [] := by
      rw [Ne, List.drop_eq_nil_iff]
      intro hle
      have := List.length_pos.mpr hne
      omega
    simp [update_metric_step, hlv, hps, hcond, if_pos (And.intro hbound hdev),
      hrec, add_metric_history _ _ hsh]
    intro himp
    have hle : |(raw : ℚ) - (((md.values.getLast?).getD 0 : ℤ) : ℚ)| ≤ 10 := by
      rcases hbound with h0 | h100
      · exact himp (Or.inl (by exact_mod_cast h0))
      · exact himp (Or.inr h100)
    exact absurd hle (not_le.mpr hdev)
  · intro latency raw lv md hlv hps hsh hv hneg
    have hcond : ¬ (md.values.length = 1 ∧ md.values.headI = 0) := by
      rw [length_one_headI_zero_iff]; exact hv
    simp [update_metric_step, hlv, hps, hcond, if_neg hneg,
      add_metric_history _ _ hsh, ratTrunc_intCast]
    intro hb hd
    exfalso
    apply hneg
    refine ⟨?_, hd⟩
    rcases hb with h | h
    · exact Or.inl (by exact_mod_cast h)
    · exact Or.inr h
  · intro latency raw lv md hlv hps hsh hv
    have hcond : ¬ (md.values.length = 1 ∧ md.values.headI = 0) := by
      simp [hv]
    simp [update_metric_step, hlv, hps, hcond, hv, add_metric, hsh, ratTrunc_intCast]

/-- Witness for C5 (amended) at the spec's own example: prior samples
`[40, 42, 45]` receiving a derived 0. -/
theorem cpu_smoothing_amended_witness :
    update_metric_step true true 1 0
        { per_second_calculation := false, save_history := true,
          last_value := some 45, values := [40, 42, 45] }
      = { per_second_calculation := false, save_history := true,
          last_value := some 45,
          values := [40, 42, 45,
            ratTrunc (((([40, 42, 45] : List ℤ).drop (3 - 3)).sum : ℚ)
              / ((([40, 42, 45] : List ℤ).drop (3 - 3)).length : ℚ))] } := by
  have h := cpu_smoothing_amended.2.1 1 0 45
    { per_second_calculation := false, save_history := true,
      last_value := some 45, values := [40, 42, 45] }
    rfl rfl rfl (by decide) (by decide) (Or.inl (by norm_num)) (by norm_num)
  simpa using h

/-! ## Claim C7: cache-hit ratio derivation -/

/-- A poll cycle delivering only block-I/O counters. -/
def ratioArgs (hit rd : ℤ) : RefreshArgs :=
  { worker_start_time := 0
    database_stats := [("blks_hit", hit), ("blks_read", rd)] }

/-- Two poll cycles with `blks_hit = 1`, `blks_read = 2` (the first cycle
only initializes the store). -/
def ratioSession : MMState :=
  refresh_data (refresh_data liveSession (ratioArgs 1 2)) (ratioArgs 1 2)

/-- Claim C7 counterexample: with `blks_hit = 1` and `blks_read = 2` the
claim says the stored value is `round(100 * 1/3, 1) = 33.3`, a value rounded
to one decimal place; the code stores `int(round((1/3) * 100, 1)) = 33`,
an integer, because `add_metric` receives `int(hit_ratio)`. -/
theorem cache_hit_ratio_counterexample :
    storedValues ratioSession "pg_cache_hit_ratio" "cache_hit_ratio" = [[33]] ∧
    pyRound1 (((1 : ℚ) / ((1 + 2 : ℤ) : ℚ)) * 100) = 333/10 ∧
    ((33 : ℤ) : ℚ) ≠ pyRound1 (((1 : ℚ) / ((1 + 2 : ℤ) : ℚ)) * 100) := by
  refine ⟨by with_unfolding_all rfl, by with_unfolding_all rfl, ?_⟩
  rw [show pyRound1 (((1 : ℚ) / ((1 + 2 : ℤ) : ℚ)) * 100) = 333/10 from by
    with_unfolding_all rfl]
  norm_num

/-- Claim C7 (amended): the derived cache-hit-ratio metric stores the
integer truncation of `round((num / (num + den)) * 100, 1)` when
`num + den > 0`, and stores the hardcoded default `100` when both are zero
(not NaN and not 0). -/
theorem cache_hit_ratio_amended :
    (∀ (s : MMState),
      0 < dictGet s.database_stats "blks_hit" 0 + dictGet s.database_stats "blks_read" 0 →
      cache_hit_ratio_value s
        = pyRound1 (((dictGet s.database_stats "blks_hit" 0 : ℤ) : ℚ)
            / ((dictGet s.database_stats "blks_hit" 0
                + dictGet s.database_stats "blks_read" 0 : ℤ) : ℚ) * 100)) ∧
    (∀ (s : MMState),
      dictGet s.database_stats "blks_hit" 0 = 0 →
      dictGet s.database_stats "blks_read" 0 = 0 →
      cache_hit_ratio_value s = 100 ∧ ratTrunc (cache_hit_ratio_value s) = 100) ∧
    (∀ (s : MMState) (e : MetricEntry),
      e ∈ s.entries → s.initialized = true →
      e.instName = "pg_cache_hit_ratio" → e.attrName = "cache_hit_ratio" →
      e.data.save_history = true →
      ∃ e' ∈ (update_pg_cache_hit_ratio s).entries,
        e'.data.values = e.data.values ++ [ratTrunc (cache_hit_ratio_value s)]) := by
  refine ⟨?_, ?_, ?_⟩
  · intro s hpos
    simp [cache_hit_ratio_value, hpos]
  · intro s h1 h2
    constructor
    · simp [cache_hit_ratio_value, h1, h2]
    · simp only [cache_hit_ratio_value, h1, h2]
      norm_num [ratTrunc]
  · intro s e he hinit hi ha hsh
    refine ⟨{ e with data := add_metric s.initialized e.data (ratTrunc (cache_hit_ratio_value s)) }, ?_, ?_⟩
    · simp only [update_pg_cache_hit_ratio, updateEntry, List.mem_map]
      exact ⟨e, he, by simp [updateEntryFun, hi, ha]⟩
    · simp [hinit, add_metric, hsh]

/-- Witness for C7 (amended) at the state one cycle before `ratioSession`. -/
theorem cache_hit_ratio_amended_witness :
    cache_hit_ratio_value (refresh_data liveSession (ratioArgs 1 2))
      = pyRound1 (((dictGet (refresh_data liveSession (ratioArgs 1 2)).database_stats "blks_hit" 0 : ℤ) : ℚ)
          / ((dictGet (refresh_data liveSession (ratioArgs 1 2)).database_stats "blks_hit" 0
              + dictGet (refresh_data liveSession (ratioArgs 1 2)).database_stats "blks_read" 0 : ℤ) : ℚ) * 100) :=
  cache_hit_ratio_amended.1 (refresh_data liveSession (ratioArgs 1 2))
    (by decide)

/-! ## Claim C10: first-cycle suppression -/

/-- When the store is not initialized and a series has no values yet, one
ingestion step adds no value (every branch ends in a no-op `add_metric`, and
the single-zero CPU branch cannot fire on an empty series). -/
theorem update_metric_step_not_initialized (isCPU : Bool) (lat : ℚ) (raw : ℤ)
    (md : MetricData) (h : md.values = []) :
    (update_metric_step false isCPU lat raw md).values = [] := by
  unfold update_metric_step
  cases hlv : md.last_value with
  | none => simpa using h
  | some lv =>
    cases isCPU with
    | false => simp [add_metric, h]
    | true => simp [add_metric, h]

/-- The first update pass leaves `initialized`, `datetimes`, `replay_file`
and the raw stores untouched (it only rewrites entry data). -/
theorem upsv_initialized (s : MMState) :
    (update_metrics_per_second_values s).initialized = s.initialized := rfl

theorem upsv_datetimes (s : MMState) :
    (update_metrics_per_second_values s).datetimes = s.datetimes := rfl

theorem updateEntry_initialized (s : MMState) (i a : String) (f : MetricData → MetricData) :
    (updateEntry s i a f).initialized = s.initialized := rfl

theorem updateEntry_datetimes (s : MMState) (i a : String) (f : MetricData → MetricData) :
    (updateEntry s i a f).datetimes = s.datetimes := rfl

theorem umlv_initialized (s : MMState) :
    (update_metrics_last_value s).initialized = s.initialized := rfl

theorem umlv_datetimes (s : MMState) :
    (update_metrics_last_value s).datetimes = s.datetimes := rfl

/-- `update_metrics_per_second_values` on a not-yet-initialized store whose
series are all empty leaves every series empty. -/
theorem upsv_values_nil (s : MMState) (hi : s.initialized = false)
    (hv : ∀ e ∈ s.entries, e.data.values = []) :
    ∀ e ∈ (update_metrics_per_second_values s).entries, e.data.values = [] := by
  intro e he
  simp only [update_metrics_per_second_values, List.mem_map] at he
  obtain ⟨e0, he0, rfl⟩ := he
  have h0 := hv e0 he0
  unfold upsvEntry
  cases hsd : get_metric_source_data s e0.source with
  | none => simpa [hsd] using h0
  | some d =>
    simp only [hsd]
    split
    · exact hi ▸ update_metric_step_not_initialized _ _ _ _ h0
    · exact h0

/-- `updateEntry` with a no-op-when-uninitialized updater preserves empty
series. -/
theorem updateEntry_values_nil (s : MMState) (i a : String) (v : ℤ) (b : Bool)
    (hb : b = false)
    (hv : ∀ e ∈ s.entries, e.data.values = []) :
    ∀ e ∈ (updateEntry s i a (fun md => add_metric b md v)).entries,
      e.data.values = [] := by
  intro e he
  simp only [updateEntry, List.mem_map] at he
  obtain ⟨e0, he0, rfl⟩ := he
  have h0 := hv e0 he0
  unfold updateEntryFun
  split
  · simpa [hb, add_metric_not_initialized] using h0
  · exact h0

/-- `update_metrics_last_value` only touches `last_value`. -/
theorem umlv_values (s : MMState) :
    ∀ e ∈ (update_metrics_last_value s).entries,
      ∃ e0 ∈ s.entries, e.data.values = e0.data.values := by
  intro e he
  simp only [update_metrics_last_value, List.mem_map] at he
  obtain ⟨e0, he0, rfl⟩ := he
  refine ⟨e0, he0, ?_⟩
  unfold umlvEntry
  cases hsd : get_metric_source_data s e0.source <;> simp [hsd]

/-- First complete ingest cycle on a store whose series are all empty and
whose clock is empty: nothing is appended anywhere, and the `initialized`
flag is only set at the very end. -/
theorem refresh_data_first_cycle (s : MMState) (a : RefreshArgs)
    (hinit : s.initialized = false)
    (hvals : ∀ e ∈ s.entries, e.data.values = [])
    (hdt : s.datetimes = []) :
    (∀ e ∈ (refresh_data s a).entries, e.data.values = []) ∧
    (refresh_data s a).datetimes = [] ∧
    (refresh_data s a).initialized = true := by
  set s1 := refresh_merge s a with hs1
  have hs1init : s1.initialized = false := hinit
  have hs1dt : s1.datetimes = [] := hdt
  have hs1vals : ∀ e ∈ s1.entries, e.data.values = [] := hvals
  set s2 := refresh_updates s1 with hs2
  have hs2init : s2.initialized = false := by
    rw [hs2]
    unfold refresh_updates
    split
    · simp only [update_metrics_replication_lag, update_pg_cache_hit_ratio,
        umlv_initialized, updateEntry_initialized, upsv_initialized]
      exact hs1init
    · exact hs1init
  have hs2dt : s2.datetimes = [] := by
    rw [hs2]
    unfold refresh_updates
    split
    · simp only [update_metrics_replication_lag, update_pg_cache_hit_ratio,
        umlv_datetimes, updateEntry_datetimes, upsv_datetimes]
      exact hs1dt
    · exact hs1dt
  have hs2vals : ∀ e ∈ s2.entries, e.data.values = [] := by
    rw [hs2]
    unfold refresh_updates
    split
    · have h1 := upsv_values_nil s1 hs1init hs1vals
      have h1i : (update_metrics_per_second_values s1).initialized = false :=
        (upsv_initialized s1).trans hs1init
      have h2 : ∀ e ∈ (update_metrics_replication_lag
          (update_metrics_per_second_values s1)).entries, e.data.values = [] := by
        unfold update_metrics_replication_lag
        exact updateEntry_values_nil _ _ _ _ _ h1i h1
      have h2i : (update_metrics_replication_lag
          (update_metrics_per_second_values s1)).initialized = false := by
        unfold update_metrics_replication_lag
        rw [updateEntry_initialized]
        exact h1i
      have h3 : ∀ e ∈ (update_pg_cache_hit_ratio
          (update_metrics_replication_lag
            (update_metrics_per_second_values s1))).entries, e.data.values = [] := by
        unfold update_pg_cache_hit_ratio
        exact updateEntry_values_nil _ _ _ _ _ h2i h2
      intro e he
      obtain ⟨e0, he0, hee⟩ := umlv_values _ e he
      rw [hee]
      exact h3 e0 he0
    · exact hs1vals
  have h3 : add_metric_datetime s2 = s2 := by
    unfold add_metric_datetime
    cases hw : s2.worker_start_time with
    | none => rfl
    | some t => simp [hs2init]
  have h4 : daemon_cleanup_data s2 a.now = s2 := by
    unfold daemon_cleanup_data
    simp [hs2dt]
  have hfd : refresh_data s a
      = { daemon_cleanup_data (add_metric_datetime s2) a.now with initialized := true } := by
    rw [hs2, hs1]; rfl
  rw [hfd, h3, h4]
  exact ⟨hs2vals, hs2dt, rfl⟩

/-- Claim C10: on a freshly constructed or freshly reset Metric Store, the
first complete ingest cycle stores no value into any series (gauges, the
derived ratio metric and the replication-lag metric included) and appends no
timestamp to the Session Clock; the `initialized` flag is `false` throughout
the cycle and set only at its end. -/
theorem first_cycle_gating :
    ∀ (s : MMState) (a : RefreshArgs),
      (reset s).initialized = false ∧
      (∀ e ∈ (reset s).entries, e.data.values = []) ∧
      (∀ e ∈ (refresh_data (reset s) a).entries, e.data.values = []) ∧
      (refresh_data (reset s) a).datetimes = [] ∧
      (refresh_data (reset s) a).initialized = true := by
  intro s a
  have hcat : ∀ e ∈ metricCatalog, e.data.values = [] := by decide
  have hvals : ∀ e ∈ (reset s).entries, e.data.values = [] := fun e he => hcat e he
  have h := refresh_data_first_cycle (reset s) a rfl hvals rfl
  exact ⟨rfl, hvals, h.1, h.2.1, h.2.2⟩

/-- Witness for C10 at a concrete first cycle (the CPU entry of the fresh
catalog is in the store, and the cycle leaves its series and the clock
empty while flipping `initialized`). -/
theorem first_cycle_gating_witness :
    (refresh_data (reset liveSession) (cpuArgs 40)).datetimes = [] ∧
    (refresh_data (reset liveSession) (cpuArgs 40)).initialized = true :=
  ⟨(first_cycle_gating liveSession (cpuArgs 40)).2.2.2.1,
   (first_cycle_gating liveSession (cpuArgs 40)).2.2.2.2⟩

/-! ## Claim C3: eviction lockstep invariant -/

/-- Claim C3 counterexample: after two live PostgreSQL poll cycles the
Session Clock holds one timestamp, but the PgBouncer `cl_active` series
(which has `save_history = true` and is skipped because its connection
source does not match a PostgreSQL session) holds no values — so it is not
the case that every `save_history` series has exactly as many stored values
as the clock has timestamps. -/
theorem eviction_lockstep_counterexample :
    (cpuSession [40, 41]).datetimes.length = 1 ∧
    storedValues (cpuSession [40, 41]) "pgbouncer_connections" "cl_active" = [[]] ∧
    ∀ e ∈ (cpuSession [40, 41]).entries,
      e.instName = "pgbouncer_connections" → e.attrName = "cl_active" →
      e.data.save_history = true ∧
      e.data.values.length ≠ (cpuSession [40, 41]).datetimes.length := by
  refine ⟨by with_unfolding_all rfl, by with_unfolding_all rfl, ?_⟩
  exact of_decide_eq_true (by with_unfolding_all rfl)

/-- The two derived series which `update_metrics_replication_lag` and
`update_pg_cache_hit_ratio` address by name each cycle. -/
def isDerivedEntry (e : MetricEntry) : Prop :=
  (e.instName = "replication_lag" ∧ e.attrName = "lag") ∨
  (e.instName = "pg_cache_hit_ratio" ∧ e.attrName = "cache_hit_ratio")

instance (e : MetricEntry) : Decidable (isDerivedEntry e) := by
  unfold isDerivedEntry; infer_instance

/-- The series the live ingest cycle appends to on every cycle: dispatched
entries whose connection-source list contains the session's source, plus
the two derived series. -/
def appliesTo (cs : ConnectionSource) (e : MetricEntry) : Prop :=
  (e.source ≠ .NONE ∧ cs ∈ e.connSource) ∨ isDerivedEntry e

instance (cs : ConnectionSource) (e : MetricEntry) : Decidable (appliesTo cs e) := by
  unfold appliesTo; infer_instance

/-- The static fields of an entry (never changed by ingestion or eviction). -/
def shapeEq (e e0 : MetricEntry) : Prop :=
  e.instName = e0.instName ∧ e.attrName = e0.attrName ∧ e.source = e0.source ∧
  e.connSource = e0.connSource ∧ e.data.save_history = e0.data.save_history

theorem shapeEq_refl (e : MetricEntry) : shapeEq e e := ⟨rfl, rfl, rfl, rfl, rfl⟩

theorem shapeEq_trans {e1 e2 e3 : MetricEntry} (h1 : shapeEq e1 e2)
    (h2 : shapeEq e2 e3) : shapeEq e1 e3 :=
  ⟨h1.1.trans h2.1, h1.2.1.trans h2.2.1, h1.2.2.1.trans h2.2.2.1,
   h1.2.2.2.1.trans h2.2.2.2.1, h1.2.2.2.2.trans h2.2.2.2.2⟩

theorem isDerivedEntry_congr {e e0 : MetricEntry} (h : shapeEq e e0) :
    isDerivedEntry e ↔ isDerivedEntry e0 := by
  unfold isDerivedEntry
  rw [h.1, h.2.1]

theorem appliesTo_congr (cs : ConnectionSource) {e e0 : MetricEntry}
    (h : shapeEq e e0) : appliesTo cs e ↔ appliesTo cs e0 := by
  unfold appliesTo
  rw [h.2.2.1, h.2.2.2.1, isDerivedEntry_congr h]

/-- The per-entry invariant of the (amended) lockstep claim: derived series
are not dispatched; every history-bearing series the cycle applies to is
exactly as long as the Session Clock; once initialized (live), every
dispatched series has a baseline `last_value`; before initialization all
series are empty. -/
def EntryInv (cs : ConnectionSource) (init rf : Bool) (L : ℕ) (e : MetricEntry) : Prop :=
  (isDerivedEntry e → e.source = .NONE) ∧
  (e.data.save_history = true → appliesTo cs e → e.data.values.length = L) ∧
  (init = true → rf = false → e.source ≠ .NONE → (e.data.last_value).isSome = true) ∧
  (init = false → e.data.values = [])

/-- The Metric Store invariant: an uninitialized store has an empty clock,
and every entry satisfies `EntryInv`. -/
def Inv (s : MMState) : Prop :=
  (s.initialized = false → s.datetimes = []) ∧
  ∀ e ∈ s.entries,
    EntryInv s.connection_source s.initialized s.replay_file s.datetimes.length e

/-- The states a Metric Store can reach: construction, live/replay ingest
cycles, and resets. -/
inductive Reachable : MMState → Prop
  | init (cs : ConnectionSource) (rf dm : Bool) : Reachable (mkMetricManager cs rf dm)
  | refresh (s : MMState) (a : RefreshArgs) : Reachable s → Reachable (refresh_data s a)
  | restart (s : MMState) : Reachable s → Reachable (reset s)

/-! ### Per-entry behaviour of the four update passes -/

theorem get_metric_source_data_eq_none_iff (s : MMState) (src : MetricSource) :
    get_metric_source_data s src = none ↔ src = .NONE := by
  cases src <;> simp [get_metric_source_data]

theorem add_metric_fields (b : Bool) (md : MetricData) (v : ℤ) :
    (add_metric b md v).save_history = md.save_history ∧
    (add_metric b md v).per_second_calculation = md.per_second_calculation ∧
    (add_metric b md v).last_value = md.last_value := by
  unfold add_metric
  split
  · split
    · exact ⟨rfl, rfl, rfl⟩
    · cases md.values <;> exact ⟨rfl, rfl, rfl⟩
  · exact ⟨rfl, rfl, rfl⟩

theorem update_metric_step_fields (i c : Bool) (l : ℚ) (r : ℤ) (md : MetricData) :
    (update_metric_step i c l r md).save_history = md.save_history := by
  unfold update_metric_step
  cases md.last_value with
  | none => rfl
  | some lv =>
    dsimp only
    repeat' split
    all_goals first
      | rfl
      | exact (add_metric_fields _ _ _).1

/-- An ingestion step on an entry with a baseline appends exactly one value
to a history-bearing series. -/
theorem update_metric_step_length (c : Bool) (l : ℚ) (r lv : ℤ) (md : MetricData)
    (hlv : md.last_value = some lv) (hsh : md.save_history = true) :
    (update_metric_step true c l r md).values.length = md.values.length + 1 := by
  unfold update_metric_step
  rw [hlv]
  dsimp only
  repeat' split
  all_goals simp [add_metric, hsh]
  all_goals omega

theorem upsvEntry_of_source_none (s : MMState) (e : MetricEntry)
    (h : e.source = .NONE) : upsvEntry s e = e := by
  unfold upsvEntry
  rw [h]
  rfl

theorem upsvEntry_of_not_conn (s : MMState) (e : MetricEntry)
    (h : s.connection_source ∉ e.connSource) : upsvEntry s e = e := by
  unfold upsvEntry
  cases get_metric_source_data s e.source with
  | none => rfl
  | some d => simp [h]

theorem upsvEntry_dispatched (s : MMState) (e : MetricEntry) (d : Dict)
    (hd : get_metric_source_data s e.source = some d)
    (hconn : s.connection_source ∈ e.connSource) :
    upsvEntry s e = { e with data := update_metric_step s.initialized (e.attrName = "CPU_Percent") s.polling_latency (dictGet d e.attrName 0) e.data } := by
  unfold upsvEntry
  rw [hd]
  simp [hconn]

theorem upsvEntry_shape (s : MMState) (e : MetricEntry) :
    shapeEq (upsvEntry s e) e := by
  unfold upsvEntry
  cases get_metric_source_data s e.source with
  | none => exact shapeEq_refl e
  | some d =>
    dsimp only
    split
    · exact ⟨rfl, rfl, rfl, rfl, update_metric_step_fields _ _ _ _ _⟩
    · exact shapeEq_refl e

theorem updateEntryFun_match (inst attr : String) (f : MetricData → MetricData)
    (e : MetricEntry) (hi : e.instName = inst) (ha : e.attrName = attr) :
    updateEntryFun inst attr f e = { e with data := f e.data } := by
  unfold updateEntryFun
  rw [if_pos ⟨hi, ha⟩]

theorem updateEntryFun_nomatch (inst attr : String) (f : MetricData → MetricData)
    (e : MetricEntry) (h : ¬ (e.instName = inst ∧ e.attrName = attr)) :
    updateEntryFun inst attr f e = e := by
  unfold updateEntryFun
  rw [if_neg h]

theorem updateEntryFun_shape (inst attr : String) (b : Bool) (v : ℤ)
    (e : MetricEntry) :
    shapeEq (updateEntryFun inst attr (fun md => add_metric b md v) e) e := by
  unfold updateEntryFun
  split
  · exact ⟨rfl, rfl, rfl, rfl, (add_metric_fields _ _ _).1⟩
  · exact shapeEq_refl e

theorem umlvEntry_of_source_none (s : MMState) (e : MetricEntry)
    (h : e.source = .NONE) : umlvEntry s e = e := by
  unfold umlvEntry
  rw [h]
  rfl

theorem umlvEntry_spec (s : MMState) (e : MetricEntry) (d : Dict)
    (hd : get_metric_source_data s e.source = some d) :
    umlvEntry s e
      = { e with data := { e.data with last_value := some (dictGet d e.attrName 0) } } := by
  unfold umlvEntry
  rw [hd]

theorem umlvEntry_shape (s : MMState) (e : MetricEntry) :
    shapeEq (umlvEntry s e) e := by
  unfold umlvEntry
  cases get_metric_source_data s e.source with
  | none => exact shapeEq_refl e
  | some d => exact ⟨rfl, rfl, rfl, rfl, rfl⟩

theorem umlvEntry_values (s : MMState) (e : MetricEntry) :
    (umlvEntry s e).data.values = e.data.values := by
  unfold umlvEntry
  cases get_metric_source_data s e.source with
  | none => rfl
  | some d => rfl

theorem umlvEntry_last_value (s : MMState) (e : MetricEntry)
    (h : e.source ≠ .NONE) : ((umlvEntry s e).data.last_value).isSome = true := by
  unfold umlvEntry
  cases hd : get_metric_source_data s e.source with
  | none => exact absurd ((get_metric_source_data_eq_none_iff s e.source).mp hd) h
  | some d => rfl

/-! ### Field preservation of the remaining phases -/

theorem refresh_updates_fields (s : MMState) :
    (refresh_updates s).connection_source = s.connection_source ∧
    (refresh_updates s).replay_file = s.replay_file ∧
    (refresh_updates s).daemon_mode = s.daemon_mode ∧
    (refresh_updates s).initialized = s.initialized ∧
    (refresh_updates s).datetimes = s.datetimes ∧
    (refresh_updates s).worker_start_time = s.worker_start_time := by
  unfold refresh_updates
  split <;> exact ⟨rfl, rfl, rfl, rfl, rfl, rfl⟩

theorem add_metric_datetime_fields (s : MMState) :
    (add_metric_datetime s).connection_source = s.connection_source ∧
    (add_metric_datetime s).replay_file = s.replay_file ∧
    (add_metric_datetime s).daemon_mode = s.daemon_mode ∧
    (add_metric_datetime s).initialized = s.initialized ∧
    (add_metric_datetime s).entries = s.entries := by
  unfold add_metric_datetime
  cases s.worker_start_time with
  | none => exact ⟨rfl, rfl, rfl, rfl, rfl⟩
  | some t =>
    dsimp only
    split <;> exact ⟨rfl, rfl, rfl, rfl, rfl⟩

/-- In a live initialized cycle the clock gains exactly the worker timestamp. -/
theorem add_metric_datetime_live (s : MMState) (t : ℤ)
    (hw : s.worker_start_time = some t) (hi : s.initialized = true)
    (hrf : s.replay_file = false) :
    (add_metric_datetime s).datetimes = s.datetimes ++ [t] := by
  unfold add_metric_datetime
  rw [hw]
  simp [hi, hrf]

/-- When not initialized or replaying, the clock is untouched. -/
theorem add_metric_datetime_skip (s : MMState)
    (h : s.initialized = false ∨ s.replay_file = true) :
    (add_metric_datetime s).datetimes = s.datetimes := by
  unfold add_metric_datetime
  cases hw : s.worker_start_time with
  | none => rfl
  | some t =>
    dsimp only
    rcases h with h | h <;> simp [h]

theorem daemon_cleanup_data_fields (s : MMState) (now : ℤ) :
    (daemon_cleanup_data s now).connection_source = s.connection_source ∧
    (daemon_cleanup_data s now).replay_file = s.replay_file ∧
    (daemon_cleanup_data s now).daemon_mode = s.daemon_mode ∧
    (daemon_cleanup_data s now).initialized = s.initialized := by
  unfold daemon_cleanup_data
  split <;> exact ⟨rfl, rfl, rfl, rfl⟩

/-! ### One live initialized ingest cycle appends to every applicable series -/

/-- The four live update passes, expressed as one per-entry transformation
over the pre-cycle state (the passes do not change the fields that later
passes read). -/
theorem refresh_updates_live_entries (s : MMState) (hrf : s.replay_file = false) :
    (refresh_updates s).entries = s.entries.map (fun e0 => umlvEntry s (updateEntryFun "pg_cache_hit_ratio" "cache_hit_ratio" (fun md => add_metric s.initialized md (ratTrunc (cache_hit_ratio_value s))) (updateEntryFun "replication_lag" "lag" (fun md => add_metric s.initialized md (dictGet s.replication_status "Seconds_Behind" 0)) (upsvEntry s e0)))) := by
  unfold refresh_updates
  rw [if_pos (by simp [hrf])]
  simp only [update_metrics_last_value, update_pg_cache_hit_ratio,
    update_metrics_replication_lag, update_metrics_per_second_values,
    updateEntry, List.map_map]
  rfl

theorem refresh_updates_live_inv (s : MMState) (hi : s.initialized = true)
    (hrf : s.replay_file = false)
    (h : ∀ e ∈ s.entries,
      EntryInv s.connection_source true false s.datetimes.length e) :
    ∀ e ∈ (refresh_updates s).entries,
      (isDerivedEntry e → e.source = .NONE) ∧
      (e.data.save_history = true → appliesTo s.connection_source e →
        e.data.values.length = s.datetimes.length + 1) ∧
      (e.source ≠ .NONE → (e.data.last_value).isSome = true) := by
  intro e he
  rw [refresh_updates_live_entries s hrf] at he
  rw [List.mem_map] at he
  obtain ⟨e0, he0, rfl⟩ := he
  have h0 := h e0 he0
  set vLag := dictGet s.replication_status "Seconds_Behind" 0 with hvLag
  set vRat := ratTrunc (cache_hit_ratio_value s) with hvRat
  by_cases hsrc : e0.source = MetricSource.NONE
  · by_cases hder : isDerivedEntry e0
    · -- a derived series: untouched by the dispatched passes, bumped once
      -- by its own update, skipped by the last-value pass
      have s1e : upsvEntry s e0 = e0 := upsvEntry_of_source_none s e0 hsrc
      rcases hder with ⟨hi1, ha1⟩ | ⟨hi1, ha1⟩
      · -- replication_lag.lag
        have s2e : updateEntryFun "replication_lag" "lag" (fun md => add_metric s.initialized md vLag) e0 = { e0 with data := add_metric s.initialized e0.data vLag } :=
          updateEntryFun_match _ _ _ _ hi1 ha1
        have s3e : updateEntryFun "pg_cache_hit_ratio" "cache_hit_ratio" (fun md => add_metric s.initialized md vRat) { e0 with data := add_metric s.initialized e0.data vLag } = { e0 with data := add_metric s.initialized e0.data vLag } := by
          apply updateEntryFun_nomatch
          simp [hi1]
        have s4e : umlvEntry s { e0 with data := add_metric s.initialized e0.data vLag } = { e0 with data := add_metric s.initialized e0.data vLag } :=
          umlvEntry_of_source_none _ _ hsrc
        rw [s1e, s2e, s3e, s4e]
        refine ⟨fun _ => hsrc, ?_, fun hne => absurd hsrc hne⟩
        intro hsh _
        have hsh0 : e0.data.save_history = true := by
          rw [← (add_metric_fields s.initialized e0.data vLag).1]
          exact hsh
        rw [hi, add_metric_history _ _ hsh0]
        simp [h0.2.1 hsh0 (Or.inr (Or.inl ⟨hi1, ha1⟩))]
      · -- pg_cache_hit_ratio.cache_hit_ratio
        have s2e : updateEntryFun "replication_lag" "lag" (fun md => add_metric s.initialized md vLag) e0 = e0 := by
          apply updateEntryFun_nomatch
          simp [hi1]
        have s3e : updateEntryFun "pg_cache_hit_ratio" "cache_hit_ratio" (fun md => add_metric s.initialized md vRat) e0 = { e0 with data := add_metric s.initialized e0.data vRat } :=
          updateEntryFun_match _ _ _ _ hi1 ha1
        have s4e : umlvEntry s { e0 with data := add_metric s.initialized e0.data vRat } = { e0 with data := add_metric s.initialized e0.data vRat } :=
          umlvEntry_of_source_none _ _ hsrc
        rw [s1e, s2e, s3e, s4e]
        refine ⟨fun _ => hsrc, ?_, fun hne => absurd hsrc hne⟩
        intro hsh _
        have hsh0 : e0.data.save_history = true := by
          rw [← (add_metric_fields s.initialized e0.data vRat).1]
          exact hsh
        rw [hi, add_metric_history _ _ hsh0]
        simp [h0.2.1 hsh0 (Or.inr (Or.inr ⟨hi1, ha1⟩))]
    · -- source NONE, not derived: every pass is the identity
      have hnl : ¬ (e0.instName = "replication_lag" ∧ e0.attrName = "lag") :=
        fun hc => hder (Or.inl hc)
      have hnr : ¬ (e0.instName = "pg_cache_hit_ratio" ∧ e0.attrName = "cache_hit_ratio") :=
        fun hc => hder (Or.inr hc)
      rw [upsvEntry_of_source_none s e0 hsrc,
        updateEntryFun_nomatch _ _ _ _ hnl, updateEntryFun_nomatch _ _ _ _ hnr,
        umlvEntry_of_source_none _ _ hsrc]
      refine ⟨fun _ => hsrc, ?_, fun hne => absurd hsrc hne⟩
      intro _ happ
      rcases happ with ⟨hne, _⟩ | hd
      · exact absurd hsrc hne
      · exact absurd hd hder
  · -- a dispatched series
    have hder : ¬ isDerivedEntry e0 := fun hd => hsrc (h0.1 hd)
    have hnl : ¬ (e0.instName = "replication_lag" ∧ e0.attrName = "lag") :=
      fun hc => hder (Or.inl hc)
    have hnr : ¬ (e0.instName = "pg_cache_hit_ratio" ∧ e0.attrName = "cache_hit_ratio") :=
      fun hc => hder (Or.inr hc)
    obtain ⟨d, hd⟩ : ∃ d, get_metric_source_data s e0.source = some d := by
      cases hgd : get_metric_source_data s e0.source with
      | none => exact absurd ((get_metric_source_data_eq_none_iff _ _).mp hgd) hsrc
      | some d => exact ⟨d, rfl⟩
    by_cases hconn : s.connection_source ∈ e0.connSource
    · -- applicable: the first pass appends one value
      obtain ⟨lv, hlv⟩ : ∃ lv, e0.data.last_value = some lv :=
        Option.isSome_iff_exists.mp (h0.2.2.1 rfl rfl hsrc)
      have s1e := upsvEntry_dispatched s e0 d hd hconn
      set md1 := update_metric_step s.initialized (e0.attrName = "CPU_Percent") s.polling_latency (dictGet d e0.attrName 0) e0.data with hmd1
      have s2e : updateEntryFun "replication_lag" "lag" (fun md => add_metric s.initialized md vLag) { e0 with data := md1 } = { e0 with data := md1 } := by
        apply updateEntryFun_nomatch
        simpa using hnl
      have s3e : updateEntryFun "pg_cache_hit_ratio" "cache_hit_ratio" (fun md => add_metric s.initialized md vRat) { e0 with data := md1 } = { e0 with data := md1 } := by
        apply updateEntryFun_nomatch
        simpa using hnr
      obtain ⟨d2, hd2⟩ : ∃ d2, get_metric_source_data s e0.source = some d2 := ⟨d, hd⟩
      have s4e : umlvEntry s { e0 with data := md1 } = { e0 with data := { md1 with last_value := some (dictGet d2 e0.attrName 0) } } :=
        umlvEntry_spec s { e0 with data := md1 } d2 hd2
      rw [s1e, s2e, s3e, s4e]
      refine ⟨fun hdd => absurd hdd hder, ?_, fun _ => rfl⟩
      intro hsh _
      have hsh0 : e0.data.save_history = true := by
        rw [← update_metric_step_fields s.initialized (e0.attrName = "CPU_Percent") s.polling_latency (dictGet d e0.attrName 0) e0.data]
        exact hsh
      have hlen := update_metric_step_length (e0.attrName = "CPU_Percent") s.polling_latency (dictGet d e0.attrName 0) lv e0.data hlv hsh0
      have h0len := h0.2.1 hsh0 (Or.inl ⟨hsrc, hconn⟩)
      show (update_metric_step s.initialized (e0.attrName = "CPU_Percent") s.polling_latency (dictGet d e0.attrName 0) e0.data).values.length = s.datetimes.length + 1
      rw [hi, hlen, h0len]
    · -- dispatched but inapplicable: only `last_value` is refreshed
      have s1e : upsvEntry s e0 = e0 := upsvEntry_of_not_conn s e0 hconn
      have s2e : updateEntryFun "replication_lag" "lag" (fun md => add_metric s.initialized md vLag) e0 = e0 :=
        updateEntryFun_nomatch _ _ _ _ hnl
      have s3e : updateEntryFun "pg_cache_hit_ratio" "cache_hit_ratio" (fun md => add_metric s.initialized md vRat) e0 = e0 :=
        updateEntryFun_nomatch _ _ _ _ hnr
      have s4e : umlvEntry s e0 = { e0 with data := { e0.data with last_value := some (dictGet d e0.attrName 0) } } :=
        umlvEntry_spec s e0 d hd
      rw [s1e, s2e, s3e, s4e]
      refine ⟨fun hdd => absurd hdd hder, ?_, fun _ => rfl⟩
      intro _ happ
      rcases happ with ⟨_, hc⟩ | hdd
      · exact absurd hc hconn
      · exact absurd hdd hder

/-! ### The eviction sweep pops clock and series in lockstep -/

theorem popHistoryEntry_shape (e : MetricEntry) :
    shapeEq (popHistoryEntry e) e ∧
    (popHistoryEntry e).data.last_value = e.data.last_value := by
  unfold popHistoryEntry
  split
  · exact ⟨⟨rfl, rfl, rfl, rfl, rfl⟩, rfl⟩
  · exact ⟨shapeEq_refl e, rfl⟩

/-- An eviction pop removes exactly one value from a non-empty
history-bearing series. -/
theorem popHistoryEntry_length (e : MetricEntry) (L : ℕ) (hL : 0 < L)
    (hsh : e.data.save_history = true) (hlen : e.data.values.length = L) :
    (popHistoryEntry e).data.values.length = L - 1 := by
  unfold popHistoryEntry
  rw [if_pos]
  · simp [List.length_tail, hlen]
  · refine ⟨hsh, ?_⟩
    intro hnil
    rw [hnil] at hlen
    simp at hlen
    omega

/-- The eviction while-loop preserves any pop-stable per-entry property and
keeps every applicable history-bearing series exactly as long as the
remaining clock. -/
theorem cleanup_loop_inv (cs : ConnectionSource) (R : MetricEntry → Prop)
    (hR : ∀ e, R e → R (popHistoryEntry e)) (threshold : ℤ) :
    ∀ (dts : List ℤ) (es : List MetricEntry),
      (∀ e ∈ es, R e) →
      (∀ e ∈ es, e.data.save_history = true → appliesTo cs e →
        e.data.values.length = dts.length) →
      (∀ e ∈ (cleanup_loop threshold dts es).2, R e) ∧
      (∀ e ∈ (cleanup_loop threshold dts es).2,
        e.data.save_history = true → appliesTo cs e →
        e.data.values.length = (cleanup_loop threshold dts es).1.length) := by
  intro dts
  induction dts with
  | nil =>
    intro es h1 h2
    exact ⟨h1, h2⟩
  | cons t rest ih =>
    intro es h1 h2
    unfold cleanup_loop
    split
    · apply ih
      · intro e he
        obtain ⟨e0, he0, rfl⟩ := List.mem_map.mp he
        exact hR e0 (h1 e0 he0)
      · intro e he
        obtain ⟨e0, he0, rfl⟩ := List.mem_map.mp he
        intro hsh happ
        have hsp := popHistoryEntry_shape e0
        have hsh0 : e0.data.save_history = true := by
          rw [← hsp.1.2.2.2.2]
          exact hsh
        have happ0 : appliesTo cs e0 := (appliesTo_congr cs hsp.1).mp happ
        have hlen0 := h2 e0 he0 hsh0 happ0
        have := popHistoryEntry_length e0 (t :: rest).length (by simp) hsh0 hlen0
        simpa using this
    · exact ⟨h1, h2⟩

/-- `daemon_cleanup_data` preserves pop-stable properties and the lockstep
length equality. -/
theorem daemon_cleanup_data_inv (cs : ConnectionSource) (R : MetricEntry → Prop)
    (hR : ∀ e, R e → R (popHistoryEntry e)) (s : MMState) (now : ℤ)
    (h1 : ∀ e ∈ s.entries, R e)
    (h2 : ∀ e ∈ s.entries, e.data.save_history = true → appliesTo cs e →
      e.data.values.length = s.datetimes.length) :
    (∀ e ∈ (daemon_cleanup_data s now).entries, R e) ∧
    (∀ e ∈ (daemon_cleanup_data s now).entries,
      e.data.save_history = true → appliesTo cs e →
      e.data.values.length = (daemon_cleanup_data s now).datetimes.length) := by
  unfold daemon_cleanup_data
  split
  · exact cleanup_loop_inv cs R hR (now - 600) s.datetimes s.entries h1 h2
  · exact ⟨h1, h2⟩

/-! ### The invariant holds in every reachable state -/

/-- `reset` (and hence construction) establishes the invariant. -/
theorem inv_reset (s : MMState) : Inv (reset s) := by
  have hc1 : ∀ e ∈ metricCatalog, isDerivedEntry e → e.source = .NONE := by decide
  have hc2 : ∀ e ∈ metricCatalog, e.data.values = [] := by decide
  refine ⟨fun _ => rfl, ?_⟩
  intro e he
  refine ⟨hc1 e he, fun _ _ => ?_, fun hit _ _ => ?_, fun _ => hc2 e he⟩
  · rw [hc2 e he]
    rfl
  · exact Bool.noConfusion hit

/-- The live update passes only change entry data, never the static shape. -/
theorem refresh_updates_shape (s : MMState) (hrf : s.replay_file = false) :
    ∀ e ∈ (refresh_updates s).entries, ∃ e0 ∈ s.entries, shapeEq e e0 := by
  intro e he
  rw [refresh_updates_live_entries s hrf, List.mem_map] at he
  obtain ⟨e0, he0, rfl⟩ := he
  refine ⟨e0, he0, ?_⟩
  exact shapeEq_trans (umlvEntry_shape _ _)
    (shapeEq_trans (updateEntryFun_shape _ _ _ _ _)
      (shapeEq_trans (updateEntryFun_shape _ _ _ _ _) (upsvEntry_shape s e0)))

/-- The last pass of a live cycle leaves every dispatched entry with a
baseline `last_value`. -/
theorem refresh_updates_last_value (s : MMState) (hrf : s.replay_file = false) :
    ∀ e ∈ (refresh_updates s).entries, e.source ≠ .NONE →
      (e.data.last_value).isSome = true := by
  intro e he hne
  rw [refresh_updates_live_entries s hrf, List.mem_map] at he
  obtain ⟨e0, he0, rfl⟩ := he
  apply umlvEntry_last_value
  rw [(umlvEntry_shape _ _).2.2.1] at hne
  exact hne

/-- A live (or replay) ingest cycle preserves the invariant. -/
theorem refresh_data_inv (s : MMState) (a : RefreshArgs) (h : Inv s) :
    Inv (refresh_data s a) := by
  obtain ⟨hdt0, hent⟩ := h
  set s1 := refresh_merge s a with hs1
  have hm_cs : s1.connection_source = s.connection_source := rfl
  have hm_rf : s1.replay_file = s.replay_file := rfl
  have hm_init : s1.initialized = s.initialized := rfl
  have hm_dts : s1.datetimes = s.datetimes := rfl
  have hm_ent : s1.entries = s.entries := rfl
  have hm_w : s1.worker_start_time = some a.worker_start_time := rfl
  -- the pre-cleanup state of the cycle
  set s2 := refresh_updates s1 with hs2
  set s3 := add_metric_datetime s2 with hs3
  have hfd : refresh_data s a = { daemon_cleanup_data s3 a.now with initialized := true } := by
    rw [hs3, hs2, hs1]; rfl
  have h2f := refresh_updates_fields s1
  have h3f := add_metric_datetime_fields s2
  have hfd_init : (refresh_data s a).initialized = true := by rw [hfd]
  have hfd_cs : (refresh_data s a).connection_source = s.connection_source := by
    rw [hfd]
    show (daemon_cleanup_data s3 a.now).connection_source = s.connection_source
    rw [(daemon_cleanup_data_fields s3 a.now).1, h3f.1, h2f.1, hm_cs]
  have hfd_rf : (refresh_data s a).replay_file = s.replay_file := by
    rw [hfd]
    show (daemon_cleanup_data s3 a.now).replay_file = s.replay_file
    rw [(daemon_cleanup_data_fields s3 a.now).2.1, h3f.2.1, h2f.2.1, hm_rf]
  have hfd_ent : (refresh_data s a).entries = (daemon_cleanup_data s3 a.now).entries := by
    rw [hfd]
  have hfd_dts : (refresh_data s a).datetimes = (daemon_cleanup_data s3 a.now).datetimes := by
    rw [hfd]
  -- the pop-stable per-entry properties carried through the eviction sweep
  set R : MetricEntry → Prop := fun e =>
    (isDerivedEntry e → e.source = .NONE) ∧
    (s.replay_file = false → e.source ≠ .NONE →
      (e.data.last_value).isSome = true) with hRdef
  have hRstable : ∀ e, R e → R (popHistoryEntry e) := by
    intro e hre
    have hsp := popHistoryEntry_shape e
    constructor
    · intro hd
      rw [hsp.1.2.2.1]
      exact hre.1 ((isDerivedEntry_congr hsp.1).mp hd)
    · intro h2 hne
      rw [hsp.2]
      apply hre.2 h2
      rw [← hsp.1.2.2.1]
      exact hne
  -- invariant of the pre-cleanup state s3
  have hmain : (∀ e ∈ s3.entries, R e) ∧
      (∀ e ∈ s3.entries, e.data.save_history = true →
        appliesTo s.connection_source e →
        e.data.values.length = s3.datetimes.length) := by
    by_cases hrf : s.replay_file = true
    · -- replay mode: entries and clock are untouched before cleanup
      have hs2e : s2 = s1 := by
        rw [hs2]
        unfold refresh_updates
        rw [if_neg]
        simp [hm_rf, hrf]
      have hs3dt : s3.datetimes = s.datetimes := by
        rw [hs3, hs2e, add_metric_datetime_skip s1 (Or.inr (hm_rf.trans hrf))]
        exact hm_dts
      have hs3e : s3.entries = s.entries := by
        rw [hs3, hs2e, (add_metric_datetime_fields s1).2.2.2.2]
        exact hm_ent
      constructor
      · rw [hs3e]
        intro e he
        exact ⟨(hent e he).1, fun h2 _ => absurd (h2.symm.trans hrf) Bool.noConfusion⟩
      · rw [hs3e, hs3dt]
        intro e he hsh happ
        exact (hent e he).2.1 hsh happ
    · have hrf' : s.replay_file = false := by
        cases hx : s.replay_file
        · rfl
        · exact absurd hx hrf
      by_cases hini : s.initialized = true
      · -- initialized live cycle: every applicable series and the clock
        -- each gain exactly one element
        have hupd := refresh_updates_live_inv s1 (hm_init.trans hini)
          (hm_rf.trans hrf')
          (by
            rw [hm_ent, hm_cs, hm_dts]
            intro e he
            have h0 := hent e he
            rw [hini, hrf'] at h0
            exact h0)
        have hs2init : s2.initialized = true := by
          rw [hs2]
          rw [h2f.2.2.2.1, hm_init, hini]
        have hs2rf : s2.replay_file = false := by
          rw [hs2, h2f.2.1, hm_rf, hrf']
        have hs2w : s2.worker_start_time = some a.worker_start_time := by
          rw [hs2, h2f.2.2.2.2.2, hm_w]
        have hs3dt : s3.datetimes = s.datetimes ++ [a.worker_start_time] := by
          rw [hs3, add_metric_datetime_live s2 a.worker_start_time hs2w hs2init hs2rf]
          rw [hs2, h2f.2.2.2.2.1, hm_dts]
        have hs3e : s3.entries = s2.entries := h3f.2.2.2.2
        constructor
        · rw [hs3e]
          intro e he
          have hu := hupd e (by rw [hs2] at he; exact he)
          exact ⟨hu.1, fun _ hne => hu.2.2 hne⟩
        · rw [hs3e, hs3dt]
          intro e he hsh happ
          have hu := hupd e (by rw [hs2] at he; exact he)
          rw [hm_cs, hm_dts] at hu
          rw [hu.2.1 hsh happ]
          simp
      · -- first cycle: nothing was appended anywhere
        have hini' : s.initialized = false := by
          cases hx : s.initialized
          · rfl
          · exact absurd hx hini
        have hdts_nil : s.datetimes = [] := hdt0 hini'
        have hvals_nil : ∀ e ∈ s.entries, e.data.values = [] :=
          fun e he => (hent e he).2.2.2 hini'
        have hs1init : s1.initialized = false := hm_init.trans hini'
        have hs1rf : s1.replay_file = false := hm_rf.trans hrf'
        have hs2vals : ∀ e ∈ s2.entries, e.data.values = [] := by
          rw [hs2]
          unfold refresh_updates
          rw [if_pos (by simp [hs1rf])]
          intro e he
          obtain ⟨e3, he3, hee⟩ := umlv_values _ e he
          rw [hee]
          have h1 := upsv_values_nil s1 hs1init (by rw [hm_ent]; exact hvals_nil)
          have h1i : (update_metrics_per_second_values s1).initialized = false :=
            (upsv_initialized s1).trans hs1init
          have h2 : ∀ e ∈ (update_metrics_replication_lag
              (update_metrics_per_second_values s1)).entries, e.data.values = [] := by
            unfold update_metrics_replication_lag
            exact updateEntry_values_nil _ _ _ _ _ h1i h1
          have h2i : (update_metrics_replication_lag
              (update_metrics_per_second_values s1)).initialized = false := by
            unfold update_metrics_replication_lag
            rw [updateEntry_initialized]
            exact h1i
          have h3 : ∀ e ∈ (update_pg_cache_hit_ratio
              (update_metrics_replication_lag
                (update_metrics_per_second_values s1))).entries, e.data.values = [] := by
            unfold update_pg_cache_hit_ratio
            exact updateEntry_values_nil _ _ _ _ _ h2i h2
          exact h3 e3 he3
        have hs2init : s2.initialized = false := by
          rw [hs2, h2f.2.2.2.1]
          exact hs1init
        have hs3dt : s3.datetimes = [] := by
          rw [hs3, add_metric_datetime_skip s2 (Or.inl hs2init), hs2,
            h2f.2.2.2.2.1, hm_dts]
          exact hdts_nil
        have hs3e : s3.entries = s2.entries := h3f.2.2.2.2
        constructor
        · rw [hs3e]
          intro e he
          have he2 := he
          rw [hs2] at he2
          obtain ⟨e0, he0, hsp⟩ := refresh_updates_shape s1 hs1rf e he2
          rw [hm_ent] at he0
          refine ⟨?_, fun _ hne => refresh_updates_last_value s1 hs1rf e he2 hne⟩
          intro hd
          rw [hsp.2.2.1]
          exact (hent e0 he0).1 ((isDerivedEntry_congr hsp).mp hd)
        · rw [hs3e, hs3dt]
          intro e he hsh happ
          rw [hs2vals e he]
  -- push through the eviction sweep and the final initialized-flag write
  have hclean := daemon_cleanup_data_inv s.connection_source R hRstable s3 a.now
    hmain.1 hmain.2
  refine ⟨fun hf => absurd (hfd_init.symm.trans hf) Bool.noConfusion, ?_⟩
  intro e he
  rw [hfd_ent] at he
  refine ⟨(hclean.1 e he).1, ?_, ?_, fun hf => absurd (hfd_init.symm.trans hf) Bool.noConfusion⟩
  · intro hsh happ
    rw [hfd_cs] at happ
    rw [hfd_dts]
    exact hclean.2 e he hsh happ
  · intro _ hrff hne
    rw [hfd_rf] at hrff
    exact (hclean.1 e he).2 hrff hne

/-- Every reachable Metric Store state satisfies the invariant. -/
theorem reachable_inv : ∀ s : MMState, Reachable s → Inv s := by
  intro s h
  induction h with
  | init cs rf dm => exact inv_reset _
  | refresh s a _ ih => exact refresh_data_inv s a ih
  | restart s _ _ => exact inv_reset s

/-- Claim C3 (amended): in every reachable state, every `save_history`
series that the session's ingest cycle applies to — dispatched series whose
connection-source list matches the session, plus the replication-lag and
cache-hit-ratio series — has exactly as many stored values as the Session
Clock has timestamps; this lockstep equality survives any eviction sweep,
which pops the clock front and every non-empty history-bearing series front
together. Series inapplicable to the session (e.g. PgBouncer series during
a PostgreSQL session) stay empty while the clock grows, so the unrestricted
claim fails (see the counterexample). -/
theorem eviction_lockstep_amended :
    ∀ s : MMState, Reachable s →
      (∀ e ∈ s.entries, e.data.save_history = true →
        appliesTo s.connection_source e →
        e.data.values.length = s.datetimes.length) ∧
      (∀ now : ℤ, ∀ e ∈ (daemon_cleanup_data s now).entries,
        e.data.save_history = true → appliesTo s.connection_source e →
        e.data.values.length = (daemon_cleanup_data s now).datetimes.length) := by
  intro s h
  have hInv := reachable_inv s h
  constructor
  · intro e he hsh happ
    exact (hInv.2 e he).2.1 hsh happ
  · intro now
    have hclean := daemon_cleanup_data_inv s.connection_source (fun _ => True)
      (fun _ _ => trivial) s now (fun _ _ => trivial)
      (fun e he hsh happ => (hInv.2 e he).2.1 hsh happ)
    exact hclean.2

/-- Witness for C3 (amended): in the concrete reachable two-cycle session,
the CPU series (as it stands after the two cycles) holds exactly as many
values as the Session Clock holds timestamps. -/
theorem eviction_lockstep_amended_witness :
    ({ instName := "system_cpu", attrName := "CPU_Percent",
       source := .SYSTEM_UTILIZATION,
       connSource := [.postgresql, .rds, .pgbouncer],
       data := { save_history := true, per_second_calculation := false,
                 last_value := some 41, values := [41] } } : MetricEntry).data.values.length
      = (refresh_data (refresh_data (mkMetricManager .postgresql false false) (cpuArgs 40))
          (cpuArgs 41)).datetimes.length :=
  (eviction_lockstep_amended _
      (Reachable.refresh _ (cpuArgs 41)
        (Reachable.refresh _ (cpuArgs 40) (Reachable.init .postgresql false false)))).1
    _ (of_decide_eq_true (by with_unfolding_all rfl)) rfl
    (of_decide_eq_true (by with_unfolding_all rfl))

/-! ## Replay subsystem (ReplayManager.py, WorkerManager.py)

Python string primitives used by the recorder are modelled over the
character list of a `String` (`str.lower`, the `in` substring test,
`str.strip`, `str.split("\x5cn")`), since only their extensional behaviour
matters here. -/

/-- `str.lower()`. -/
def pyLower (s : String) : String := ⟨s.data.map Char.toLower⟩

/-- `needle in hay` on character lists. -/
def listContains (p : List Char) : List Char → Bool
  | [] => p.isEmpty
  | c :: t => p.isPrefixOf (c :: t) || listContains p t

/-- Python's substring test `p in s`. -/
def pyContains (p s : String) : Bool := listContains p.data s.data

/-- `str.strip()`: drop whitespace from both ends. -/
def pyStrip (s : String) : String :=
  ⟨((s.data.dropWhile Char.isWhitespace).reverse.dropWhile Char.isWhitespace).reverse⟩

/-- `str.split(sep)` for a one-character separator (keeps empty pieces,
like Python). -/
def splitOnChar (c : Char) : List Char → List (List Char)
  | [] => [[]]
  | x :: t =>
    match splitOnChar c t with
    | [] => [[x]]
    | h :: r => if x == c then [] :: h :: r else (x :: h) :: r

/-- `decompressed_data.decode("utf-8").strip().split("\x5cn")` followed by
the `if line` guard of the parse loop. -/
def split_records (s : String) : List String :=
  ((splitOnChar (Char.ofNat 10) (pyStrip s).data).map (fun l => (⟨l⟩ : String))).filter
    (fun l => l ≠ "")

/-- `ReplayManager._filter_variables`'s `exclude_patterns`. -/
def exclude_patterns : List String := ["ssl", "password", "key"]

/-- Whether a variable name matches a sensitive pattern
(`any(p in k.lower() for p in exclude_patterns)`). -/
def sensitiveName (k : String) : Bool :=
  exclude_patterns.any (fun p => pyContains p (pyLower k))

/-- `ReplayManager._filter_variables`. -/
def filter_variables (vars : StrDict) : StrDict :=
  vars.filter (fun kv => ! sensitiveName kv.1)

/-- The serialized Metric Store state written into a frame by
`ReplayManager._serialize_metrics`: the datetimes deque as a list, plus for
each metric instance the value lists of its `MetricData` attributes. -/
structure MetricsSnapshot where
  datetimes : List ℤ
  series : List (String × List (String × List ℤ))
deriving DecidableEq, Repr, Inhabited

/-- The metric instance attributes of `MetricInstances`, in field order
(the iteration order of `metrics.__dict__`). -/
def metricInstanceNames : List String :=
  ["system_cpu", "system_memory", "system_disk_io", "system_network",
   "pg_transactions", "pg_tuples", "pg_block_io", "pg_cache_hit_ratio",
   "pg_connections", "pg_checkpoints", "pg_temp_files", "replication_lag",
   "pgbouncer_connections", "pgbouncer_traffic"]

/-- `ReplayManager._serialize_metrics` (an instance is included only when
it has at least one `MetricData` attribute). -/
def serialize_metrics (mm : MMState) : MetricsSnapshot :=
  { datetimes := mm.datetimes
    series := metricInstanceNames.filterMap (fun inst =>
      let d := (mm.entries.filter (fun e => e.instName = inst)).map
        (fun e => (e.attrName, e.data.values))
      if d.isEmpty then none else some (inst, d)) }

/-- One serialized replay record, with exactly the keys written by
`ReplayManager.capture_state` (a `ProcesslistThread`'s `thread_data` dict is
kept as-is). `orjson.dumps`/`orjson.loads` of these JSON-representable
values round-trips, so persistence is modelled as the identity on frames. -/
structure Frame where
  timestamp : String
  system_utilization : Dict
  global_variables : StrDict
  processlist : List (String × StrDict)
  replication_status : Dict
  connection_stats : Dict
  database_stats : Dict
  metric_manager : MetricsSnapshot
  replay_polling_latency : ℚ
deriving DecidableEq, Repr, Inhabited

/-- The fields of the `Hastin` session object read and written by the
recorder and the replay worker. -/
structure HastinState where
  record_for_replay : Bool
  system_utilization : Dict
  global_variables : StrDict
  processlist_threads : List (String × StrDict)
  replication_status : Dict
  connection_stats : Dict
  database_stats : Dict
  metric_manager : MMState
  worker_processing_time : ℚ
deriving Repr

/-- The frame built by `ReplayManager.capture_state` (lines 91–101). -/
def capture_frame (h : HastinState) (timestamp : String) : Frame :=
  { timestamp := timestamp
    system_utilization := h.system_utilization
    global_variables := filter_variables h.global_variables
    processlist := h.processlist_threads
    replication_status := h.replication_status
    connection_stats := h.connection_stats
    database_stats := h.database_stats
    metric_manager := serialize_metrics h.metric_manager
    replay_polling_latency := h.worker_processing_time }

/-- `ReplayManager.capture_state`: a no-op unless recording is enabled
(write failures are logged and swallowed, so the produced frame is the
whole observable effect). -/
def capture_state (h : HastinState) (timestamp : String) : Option Frame :=
  if h.record_for_replay then some (capture_frame h timestamp) else none

/-- `ReplayManager.PostgreSQLReplayData`: note that this dataclass has
exactly these eight fields — in particular it has **no**
`replay_polling_latency` field and **no** `get` attribute. -/
structure PostgreSQLReplayData where
  timestamp : String
  system_utilization : Dict
  global_variables : StrDict
  processlist : List (String × StrDict)
  replication_status : Dict := []
  connection_stats : Dict := []
  database_stats : Dict := []
  metric_manager : MetricsSnapshot := ⟨[], []⟩
deriving DecidableEq, Repr

/-- The `PostgreSQLReplayData` built by `get_next_refresh_interval` from a
parsed record (each processlist entry is rewrapped in a
`ProcesslistThread`, which keeps its `thread_data`). -/
def toReplayData (d : Frame) : PostgreSQLReplayData :=
  { timestamp := d.timestamp
    system_utilization := d.system_utilization
    global_variables := d.global_variables
    processlist := d.processlist
    replication_status := d.replication_status
    connection_stats := d.connection_stats
    database_stats := d.database_stats
    metric_manager := d.metric_manager }

/-- The playback state of `ReplayManager`: the loaded log and the cursor. -/
structure ReplayManagerState where
  replay_data : List Frame
  current_replay_id : ℕ
deriving Repr

/-- `ReplayManager.get_next_refresh_interval`. -/
def get_next_refresh_interval (s : ReplayManagerState) :
    Option PostgreSQLReplayData × ReplayManagerState :=
  if s.replay_data.length ≤ s.current_replay_id then (none, s)
  else
    match s.replay_data.get? s.current_replay_id with
    | none => (none, s)  -- unreachable: the cursor is within bounds here
    | some d => (some (toReplayData d),
        { s with current_replay_id := s.current_replay_id + 1 })

/-- `n` consecutive next-frame requests, collecting the results. -/
def run_next_frames : ℕ → ReplayManagerState →
    List (Option PostgreSQLReplayData) × ReplayManagerState
  | 0, s => ([], s)
  | n + 1, s =>
    let p := get_next_refresh_interval s
    let q := run_next_frames n p.2
    (p.1 :: q.1, q.2)

/-- The record-parsing loop of `_load_replay_file`: parse each line in
order, failing on the first record `orjson.loads` rejects. -/
def parse_records (parse : String → Except String Frame) :
    List String → Except String (List Frame)
  | [] => .ok []
  | l :: rest =>
    match parse l with
    | .error e => .error e
    | .ok f =>
      match parse_records parse rest with
      | .error e => .error e
      | .ok fs => .ok (f :: fs)

/-- `ReplayManager._load_replay_file`, parametrized by the two external
collaborators: the zstd decompressor (its result, or the exception it
raised) and `orjson.loads` for one record. The `try`/`except` wrapper turns
any failure — decompression or any record parse — into an empty log. -/
def load_replay_pipeline (decompressed : Except String String)
    (parse : String → Except String Frame) : Except String (List Frame) :=
  match decompressed with
  | .error e => .error e
  | .ok data => parse_records parse (split_records data)

/-- `ReplayManager._load_replay_file`: the replay data after loading. -/
def load_replay_file (decompressed : Except String String)
    (parse : String → Except String Frame) : List Frame :=
  match load_replay_pipeline decompressed parse with
  | .ok frames => frames
  | .error _ => []

/-! ## Claim C4: redaction before serialization -/

/-- A sensitively named key never survives `_filter_variables`. -/
theorem lookup_filter_variables (vars : StrDict) (k : String)
    (hk : sensitiveName k = true) :
    List.lookup k (filter_variables vars) = none := by
  induction vars with
  | nil => rfl
  | cons kv rest ih =>
    unfold filter_variables at *
    rw [List.filter_cons]
    by_cases hkv : sensitiveName kv.1 = true
    · simp only [hkv]
      exact ih
    · have hne : (k == kv.1) = false := by
        rw [beq_eq_false_iff_ne]
        intro he
        rw [← he] at hkv
        exact hkv hk
      simp only [hkv, Bool.not_false, if_pos]
      rw [List.lookup_cons]
      simp only [hne]
      exact ih

/-- Claim C4: every session variable whose name case-insensitively contains
"ssl", "password" or "key" is removed by the recorder before serialization,
so it appears neither in the captured frame nor in the replayed
`PostgreSQLReplayData` built from it, regardless of its value. -/
theorem redaction_spec :
    ∀ (k : String), sensitiveName k = true →
      (∀ vars : StrDict, List.lookup k (filter_variables vars) = none) ∧
      (∀ (h : HastinState) (ts : String),
        List.lookup k (capture_frame h ts).global_variables = none ∧
        (∀ f, capture_state h ts = some f →
          List.lookup k f.global_variables = none) ∧
        List.lookup k (toReplayData (capture_frame h ts)).global_variables = none) := by
  intro k hk
  refine ⟨fun vars => lookup_filter_variables vars k hk, ?_⟩
  intro h ts
  refine ⟨lookup_filter_variables _ k hk, ?_, lookup_filter_variables _ k hk⟩
  intro f hf
  unfold capture_state at hf
  split at hf
  · cases hf
    exact lookup_filter_variables _ k hk
  · cases hf

/-- Witness for C4: the variable `SSL_Cert_File` is filtered out of a
concrete captured frame. -/
theorem redaction_spec_witness :
    List.lookup "SSL_Cert_File"
      (filter_variables [("SSL_Cert_File", "/path"), ("server_version", "16")])
      = none :=
  (redaction_spec "SSL_Cert_File" (by decide)).1
    [("SSL_Cert_File", "/path"), ("server_version", "16")]

/-! ## Claim C6: playback cursor -/

/-- The cursor never moves backward, stays within `[0, len]`, the log never
changes, a request below the end returns the frame at the cursor and
advances by one, and a request at or past the end returns the exhausted
sentinel and leaves the state unchanged. -/
theorem get_next_refresh_interval_spec (s : ReplayManagerState) :
    (s.current_replay_id ≤ (get_next_refresh_interval s).2.current_replay_id) ∧
    ((get_next_refresh_interval s).2.replay_data = s.replay_data) ∧
    (s.current_replay_id ≤ s.replay_data.length →
      (get_next_refresh_interval s).2.current_replay_id ≤ s.replay_data.length) ∧
    (s.current_replay_id < s.replay_data.length →
      (get_next_refresh_interval s).1
          = (s.replay_data.get? s.current_replay_id).map toReplayData ∧
        (get_next_refresh_interval s).2.current_replay_id = s.current_replay_id + 1) ∧
    (s.replay_data.length ≤ s.current_replay_id →
      get_next_refresh_interval s = (none, s)) := by
  unfold get_next_refresh_interval
  by_cases hle : s.replay_data.length ≤ s.current_replay_id
  · rw [if_pos hle]
    exact ⟨le_refl _, rfl, fun h => h, fun hlt => absurd hlt (by omega), fun _ => rfl⟩
  · rw [if_neg hle]
    have hlt : s.current_replay_id < s.replay_data.length := by omega
    cases hget : s.replay_data.get? s.current_replay_id with
    | none =>
      rw [List.get?_eq_none] at hget
      omega
    | some d =>
      dsimp only
      exact ⟨by omega, rfl, fun _ => by omega,
        fun _ => ⟨rfl, rfl⟩, fun h => absurd h (by omega)⟩

/-- The result sequence of `n` next-frame requests starting at cursor `i`:
the `k`-th call returns frame `i + k` when it exists and the exhausted
sentinel otherwise. -/
theorem run_next_frames_spec (n : ℕ) : ∀ (log : List Frame) (i : ℕ),
    (run_next_frames n ⟨log, i⟩).1
      = (List.range n).map (fun k => (log.get? (i + k)).map toReplayData) := by
  induction n with
  | zero => intro log i; rfl
  | succ m ih =>
    intro log i
    rw [List.range_succ_eq_map, List.map_cons, List.map_map]
    show (get_next_refresh_interval ⟨log, i⟩).1 ::
      (run_next_frames m (get_next_refresh_interval ⟨log, i⟩).2).1 = _
    unfold get_next_refresh_interval
    dsimp only
    by_cases hle : log.length ≤ i
    · rw [if_pos hle]
      dsimp only
      rw [ih log i]
      have hnone : ∀ j : ℕ, i ≤ j → log.get? j = none :=
        fun j hj => List.get?_eq_none.mpr (le_trans hle hj)
      rw [hnone (i + 0) (by omega)]
      congr 1
      apply List.map_congr_left
      intro k _
      simp only [Function.comp_apply, Nat.succ_eq_add_one]
      rw [hnone (i + k) (by omega), hnone (i + (k + 1)) (by omega)]
    · rw [if_neg hle]
      cases hget : log.get? i with
      | none =>
        rw [List.get?_eq_none] at hget
        omega
      | some d =>
        dsimp only
        rw [ih log (i + 1)]
        have h0 : i + 0 = i := by omega
        rw [h0, hget]
        congr 1
        apply List.map_congr_left
        intro k _
        simp only [Function.comp_apply, Nat.succ_eq_add_one]
        rw [show i + 1 + k = i + (k + 1) by omega]

/-- Claim C6: the playback cursor satisfies `0 ≤ cursor ≤ len(log)` at all
times and never decreases; each next-frame request returns the frame at
the cursor and advances it by one; at the end every request returns the
exhausted sentinel without wrapping; and `len(log) + 1` consecutive
requests from a fresh load return the frames in index order followed by
the sentinel on the final call. -/
theorem playback_cursor_spec :
    (∀ s : ReplayManagerState,
      s.current_replay_id ≤ (get_next_refresh_interval s).2.current_replay_id ∧
      (s.current_replay_id ≤ s.replay_data.length →
        (get_next_refresh_interval s).2.current_replay_id ≤ s.replay_data.length) ∧
      (s.current_replay_id < s.replay_data.length →
        (get_next_refresh_interval s).1
            = (s.replay_data.get? s.current_replay_id).map toReplayData ∧
          (get_next_refresh_interval s).2.current_replay_id = s.current_replay_id + 1) ∧
      (s.replay_data.length ≤ s.current_replay_id →
        get_next_refresh_interval s = (none, s))) ∧
    (∀ log : List Frame,
      (run_next_frames (log.length + 1) ⟨log, 0⟩).1
        = (List.range (log.length + 1)).map
            (fun k => (log.get? k).map toReplayData) ∧
      (run_next_frames (log.length + 1) ⟨log, 0⟩).1.getLast? = some none) := by
  constructor
  · intro s
    have h := get_next_refresh_interval_spec s
    exact ⟨h.1, h.2.2.1, h.2.2.2.1, h.2.2.2.2⟩
  · intro log
    have h := run_next_frames_spec (log.length + 1) log 0
    simp only [Nat.zero_add] at h
    refine ⟨h, ?_⟩
    rw [h]
    rw [List.getLast?_eq_get? _]
    simp only [List.length_map, List.length_range]
    rw [List.get?_map]
    rw [List.get?_range (by omega)]
    simp [List.get?_eq_none.mpr (le_refl log.length)]

/-- Witness for C6 at a concrete two-frame log. -/
theorem playback_cursor_spec_witness :
    (get_next_refresh_interval ⟨[], 0⟩).2.current_replay_id ≤ ([] : List Frame).length :=
  (playback_cursor_spec.1 ⟨[], 0⟩).2.1 (by decide)

/-! ## Claim C9: corrupt replay load degrades to empty -/

/-- If any record fails to parse, the whole parse loop fails. -/
theorem parse_records_error_of_mem (parse : String → Except String Frame) :
    ∀ (l : List String), (∃ x ∈ l, ∃ msg, parse x = .error msg) →
      ∃ msg, parse_records parse l = .error msg := by
  intro l
  induction l with
  | nil =>
    rintro ⟨x, hx, _⟩
    exact absurd hx (List.not_mem_nil x)
  | cons a t ih =>
    rintro ⟨x, hx, msg, hmsg⟩
    unfold parse_records
    cases hpa : parse a with
    | error m => exact ⟨m, rfl⟩
    | ok b =>
      rcases List.mem_cons.mp hx with rfl | hxt
      · rw [hpa] at hmsg
        cases hmsg
      · obtain ⟨m, hm⟩ := ih ⟨x, hxt, msg, hmsg⟩
        rw [hm]
        exact ⟨m, rfl⟩

/-- Claim C9: if decompression fails, or any record fails to parse, the
load yields an empty replay log (it never raises — `load_replay_file` is a
total function); when everything parses, the parsed frames are returned. -/
theorem corrupt_replay_load_spec :
    (∀ (e : String) (parse : String → Except String Frame),
      load_replay_file (.error e) parse = []) ∧
    (∀ (data : String) (parse : String → Except String Frame),
      (∃ line ∈ split_records data, ∃ msg, parse line = .error msg) →
      load_replay_file (.ok data) parse = []) ∧
    (∀ (data : String) (parse : String → Except String Frame)
        (frames : List Frame),
      parse_records parse (split_records data) = .ok frames →
      load_replay_file (.ok data) parse = frames) := by
  refine ⟨fun e parse => rfl, ?_, ?_⟩
  · intro data parse hbad
    obtain ⟨m, hm⟩ := parse_records_error_of_mem parse (split_records data) hbad
    unfold load_replay_file load_replay_pipeline
    dsimp only
    rw [hm]
  · intro data parse frames hok
    unfold load_replay_file load_replay_pipeline
    dsimp only
    rw [hok]

/-- Witness for C9: a log whose second record is corrupt loads as empty. -/
theorem corrupt_replay_load_spec_witness :
    load_replay_file (.ok "{}\nnot-json")
      (fun l => if l = "not-json" then .error "invalid json" else .ok default) = [] := by
  have h := corrupt_replay_load_spec.2.1 "{}\nnot-json"
    (fun l => if l = "not-json" then .error "invalid json" else .ok default)
    ⟨"not-json", by decide, "invalid json", rfl⟩
  exact h

/-! ## Claim C8: single-flight ad-hoc commands (PostgreSQL.py,
KeyEventManager.py) -/

/-- The observable state of a `Database` connection handler. The in-flight
flag `is_running_query` is set around `cursor.execute` and checked at
dispatch; `executed_queries` records the queries actually sent to the
server. -/
structure DbState where
  connected : Bool
  is_running_query : Bool
  last_execute_successful : Bool
  notifications : List String
  executed_queries : List String
deriving DecidableEq, Repr

/-- The busy-rejection notification of `Database.execute` (lines 234–242). -/
def busy_notification : String :=
  "Another query is already running, please repeat action"

/-- `Database.execute` for the cases the claim is about: not connected, a
query already in flight (reject: notify, clear the success flag, run
nothing), or the success path (the query runs and `rowcount` — supplied by
the external server — is returned; `is_running_query` is set before
`cursor.execute` and cleared after, so it is `false` again when the call
returns). The psycopg-error/reconnect branches are driven by external
failures and are not modelled. -/
def db_execute (s : DbState) (query : String) (rowcount : ℤ) :
    DbState × Option ℤ :=
  if s.connected = false then
    ({ s with last_execute_successful := false }, none)
  else if s.is_running_query = true then
    ({ s with notifications := s.notifications ++ [busy_notification],
              last_execute_successful := false }, none)
  else
    ({ s with executed_queries := s.executed_queries ++ [query],
              is_running_query := false,
              last_execute_successful := true }, some rowcount)

/-- The completion half of an in-flight `execute` call (the lines after
`cursor.execute` returns: clear the flag, set the success flag, return
`cursor.rowcount`); used to model a call that is still in flight while
another request arrives. -/
def db_complete_query (s : DbState) (query : String) (rowcount : ℤ) :
    DbState × Option ℤ :=
  ({ s with is_running_query := false,
            last_execute_successful := true,
            executed_queries := s.executed_queries ++ [query] }, some rowcount)

/-- The ad-hoc guard of `KeyEventManager.process_key_event` (lines 95–98):
when the secondary connection is already processing a query, notify and
return before dispatching the command. -/
def process_key_event_adhoc_guard (secondary : Option DbState) : Option String :=
  match secondary with
  | some c =>
    if c.is_running_query then
      some "There's already a command running - please wait for it to finish"
    else none
  | none => none

/-- Claim C8: a request arriving while another ad-hoc command is in flight
on the secondary connection is rejected immediately with a please-wait
signal, nothing is queued or executed for it, and the in-flight command's
execution trace, result and success flag are exactly as if the rejected
request had never happened. -/
theorem single_flight_spec :
    ∀ (s : DbState), s.connected = true → s.is_running_query = true →
      (process_key_event_adhoc_guard (some s)
        = some "There's already a command running - please wait for it to finish") ∧
      (∀ (q : String) (rc : ℤ),
        db_execute s q rc
          = ({ s with notifications := s.notifications ++ [busy_notification],
                      last_execute_successful := false }, none) ∧
        (db_execute s q rc).1.executed_queries = s.executed_queries ∧
        (db_execute s q rc).1.is_running_query = true ∧
        (∀ (q0 : String) (rc0 : ℤ),
          (db_complete_query (db_execute s q rc).1 q0 rc0).2
              = (db_complete_query s q0 rc0).2 ∧
          (db_complete_query (db_execute s q rc).1 q0 rc0).1.executed_queries
              = (db_complete_query s q0 rc0).1.executed_queries ∧
          (db_complete_query (db_execute s q rc).1 q0 rc0).1.last_execute_successful
              = (db_complete_query s q0 rc0).1.last_execute_successful ∧
          (db_complete_query (db_execute s q rc).1 q0 rc0).1.is_running_query
              = (db_complete_query s q0 rc0).1.is_running_query)) := by
  intro s hc hr
  constructor
  · simp [process_key_event_adhoc_guard, hr]
  · intro q rc
    have hexe : db_execute s q rc
        = ({ s with notifications := s.notifications ++ [busy_notification],
                    last_execute_successful := false }, none) := by
      unfold db_execute
      rw [if_neg (by rw [hc]; exact Bool.noConfusion), if_pos hr]
    refine ⟨hexe, by rw [hexe], by rw [hexe]; exact hr, ?_⟩
    intro q0 rc0
    rw [hexe]
    exact ⟨rfl, rfl, rfl, rfl⟩

/-- Witness for C8 at a concrete busy connection. -/
theorem single_flight_spec_witness :
    db_execute ⟨true, true, true, [], ["q0"]⟩ "q1" 7
      = (⟨true, true, false, [busy_notification], ["q0"]⟩, none) :=
  ((single_flight_spec ⟨true, true, true, [], ["q0"]⟩ rfl rfl).2 "q1" 7).1

/-! ## Claim C1: record/replay round trip (WorkerManager.run_worker_replay) -/

/-- The gating conditions checked at the top of `run_worker_replay`
(screen stack depth, pause/manual-control, active tab). -/
structure ReplayGating where
  screen_stack_depth : ℕ := 1
  pause_refresh : Bool := false
  manual_control : Bool := false
  is_active_tab : Bool := true
deriving Repr

/-- Lines 35–40: the replay tick returns without doing anything when a
modal screen is up, refresh is paused without manual control, or the tab is
not active. -/
def replay_gate_blocked (g : ReplayGating) : Prop :=
  1 < g.screen_stack_depth ∨ (g.pause_refresh = true ∧ g.manual_control = false) ∨
    g.is_active_tab = false

instance (g : ReplayGating) : Decidable (replay_gate_blocked g) := by
  unfold replay_gate_blocked; infer_instance

/-- The per-tab state touched by `run_worker_replay`. -/
structure ReplayTab where
  hastin : HastinState
  replay_manager : ReplayManagerState
  notifications : List String
  worker_cancelled : Bool
deriving Repr

/-- The outcome of one `run_worker_replay` invocation. -/
inductive ReplayStepResult
  | gated
  | exhausted
  | replay_error (msg : String)
deriving DecidableEq, Repr

/-- `WorkerManager.run_worker_replay`, one frame: after the gate, the next
frame is fetched (cursor advances) and lines 49–50 assign
`hastin.system_utilization` / `hastin.global_variables`; then line 56
evaluates `replay_event_data.get("replay_polling_latency", 0)`.
`PostgreSQLReplayData` is a plain dataclass that defines no attribute or
method named `get` (see `PostgreSQLReplayData` above), so this attribute
access raises `AttributeError`, which the surrounding `except Exception`
turns into an "Error during replay" notification and a worker
cancellation. The Metric Store load further down (refresh_data plus the
wholesale overwrite of `datetimes` and every series' values from the
frame's snapshot) is therefore never reached. -/
def run_worker_replay (g : ReplayGating) (t : ReplayTab) :
    ReplayTab × ReplayStepResult :=
  if replay_gate_blocked g then (t, .gated)
  else
    match get_next_refresh_interval t.replay_manager with
    | (none, _) => ({ t with worker_cancelled := true }, .exhausted)
    | (some d, pb) =>
      ({ t with
          replay_manager := pb
          hastin := { t.hastin with
            system_utilization := d.system_utilization
            global_variables := d.global_variables }
          notifications := t.notifications
            ++ ["Error during replay: 'PostgreSQLReplayData' object has no attribute 'get'"]
          worker_cancelled := true },
       .replay_error "AttributeError: 'PostgreSQLReplayData' object has no attribute 'get'")

/-- A recording session after two CPU poll cycles: its Metric Store clock
holds one timestamp and its CPU series holds stored values. -/
def recordedHastin : HastinState :=
  { record_for_replay := true
    system_utilization := [("CPU_Percent", 41)]
    global_variables := []
    processlist_threads := []
    replication_status := []
    connection_stats := []
    database_stats := []
    metric_manager := cpuSession [40, 41]
    worker_processing_time := 1 }

/-- The frame the recorder captured from that session. -/
def recordedFrame : Frame := capture_frame recordedHastin "2025-01-01T00:00:00"

/-- A replay session about to play that one-frame log into a fresh
replay-mode Metric Store. -/
def replayTab0 : ReplayTab :=
  { hastin := { recordedHastin with
                  record_for_replay := false
                  metric_manager := mkMetricManager .postgresql true false }
    replay_manager := { replay_data := [recordedFrame], current_replay_id := 0 }
    notifications := []
    worker_cancelled := false }

/-- Claim C1 (code bug): the round trip never happens. On every replay tick
that passes the gate and has a frame available, line 56 of
`WorkerManager.run_worker_replay` evaluates
`replay_event_data.get("replay_polling_latency", 0)` on a
`PostgreSQLReplayData` dataclass, which has no attribute `get`; the
resulting `AttributeError` is caught by the blanket `except`, a replay-error
notification is shown, the worker is cancelled, and the Metric Store is
left untouched — so the loaded store is never made identical to the
captured one. Concretely: capturing a frame from a session whose store
clock holds one timestamp and replaying it leaves the replay store's
serialized snapshot different from the captured snapshot (empty clock
versus one timestamp). -/
theorem replay_round_trip_code_bug :
    (∀ (g : ReplayGating) (t : ReplayTab),
      ¬ replay_gate_blocked g →
      (get_next_refresh_interval t.replay_manager).1.isSome = true →
      (run_worker_replay g t).2
          = .replay_error "AttributeError: 'PostgreSQLReplayData' object has no attribute 'get'" ∧
      (run_worker_replay g t).1.hastin.metric_manager = t.hastin.metric_manager ∧
      (run_worker_replay g t).1.worker_cancelled = true ∧
      (run_worker_replay g t).1.notifications = t.notifications
          ++ ["Error during replay: 'PostgreSQLReplayData' object has no attribute 'get'"]) ∧
    ((run_worker_replay {} replayTab0).2
        = .replay_error "AttributeError: 'PostgreSQLReplayData' object has no attribute 'get'" ∧
     serialize_metrics (run_worker_replay {} replayTab0).1.hastin.metric_manager
        ≠ recordedFrame.metric_manager ∧
     (serialize_metrics (run_worker_replay {} replayTab0).1.hastin.metric_manager).datetimes
        = [] ∧
     recordedFrame.metric_manager.datetimes = [0]) := by
  constructor
  · intro g t hg hsome
    unfold run_worker_replay
    rw [if_neg hg]
    rcases hp : get_next_refresh_interval t.replay_manager with ⟨o, pb⟩
    rcases o with _ | d
    · rw [hp] at hsome
      simp at hsome
    · exact ⟨rfl, rfl, rfl, rfl⟩
  · exact of_decide_eq_true (by with_unfolding_all rfl)

/-- Witness for C1: the universal part applied to the concrete one-frame
replay session. -/
theorem replay_round_trip_code_bug_witness :
    (run_worker_replay {} replayTab0).2
        = ReplayStepResult.replay_error
            "AttributeError: 'PostgreSQLReplayData' object has no attribute 'get'" ∧
    (run_worker_replay {} replayTab0).1.hastin.metric_manager
        = replayTab0.hastin.metric_manager ∧
    (run_worker_replay {} replayTab0).1.worker_cancelled = true :=
  let h := replay_round_trip_code_bug.1 {} replayTab0 (by decide)
    (of_decide_eq_true (by with_unfolding_all rfl))
  ⟨h.1, h.2.1, h.2.2.1⟩

end Hastin
